import Mathlib

/-!
# Movie_Book seat-reservation subsystem: verification of spec claims

Shallow embedding of the seat-reservation concurrency subsystem of the
Movie_Book repository:

* the realtime lock layer: the in-memory `activeSeatLocks` map and the
  socket handlers `requestLock`, `releaseLock` (via `releaseSeatLock`) and
  the periodic expiry sweep, from `backend/server.js`;
* the durable layer: the `Booking`/`Show`/`SeatLock` Mongo collections and
  the route handlers `POST /api/bookings` and `PUT /api/bookings/:id/cancel`
  from `backend/routes/bookings.js`, plus show creation from
  `POST /api/shows` in `backend/routes/shows.js`.

All machine-level JS details that the claims depend on are kept: string-
concatenated lock keys, JS falsiness checks, the `||` price fallback, the
order of the route's checks, and the fact that every state mutation of the
booking route happens inside one Mongo transaction that is aborted on every
failure path before `commitTransaction`.
-/

namespace MovieBook

/-! ## Realtime lock layer (backend/server.js)

`activeSeatLocks` is a JS `Map` from the string key `showId + "_" + seatId`
to a lock record.  We model it as an association list; `Map.set` replaces
any existing binding for the key and otherwise appends. -/

/-- A value of the `activeSeatLocks` map (server.js line 225). -/
structure SockLock where
  lockId : String
  userId : String
  seatId : String
  showId : String
  expiresAt : Int
  socketId : String
deriving Repr, DecidableEq

/-- The in-memory `activeSeatLocks` map, as an association list keyed by
the concatenated string `showId + "_" + seatId`. -/
abbrev SockTable := List (String × SockLock)

/-- The string key `` `${showId}_${seatId}` `` used by server.js. -/
def lockKey (showId seatId : String) : String :=
  showId ++ "_" ++ seatId

/-- `Map.has` on the association list. -/
def mapHas (t : SockTable) (k : String) : Bool :=
  t.any (fun p => p.1 = k)

/-- `Map.get` on the association list (first binding wins, like JS `Map`). -/
def mapGet (t : SockTable) (k : String) : Option SockLock :=
  (t.find? (fun p => p.1 = k)).map (fun p => p.2)

/-- `Map.set`: replace the binding for `k` if present, else append. -/
def mapSet (t : SockTable) (k : String) (v : SockLock) : SockTable :=
  t.filter (fun p => p.1 ≠ k) ++ [(k, v)]

/-- `Map.delete`. -/
def mapDelete (t : SockTable) (k : String) : SockTable :=
  t.filter (fun p => p.1 ≠ k)

/-- Responses the `requestLock` socket handler can emit to the requester
(server.js lines 188-256). -/
inductive SockResult where
  /-- `socket.emit('error', { message: 'Invalid lock request data' })` -/
  | invalidData
  /-- `socket.emit('error', { message: 'Cannot lock more than 8 seats' })` -/
  | capError
  /-- `socket.emit('lockFailed', { …, conflicts })` -/
  | lockFailed (conflicts : List String)
  /-- `socket.emit('lockSuccess', { lockId, expiresAt })` -/
  | lockSuccess (lockId : String) (expiresAt : Int)
deriving Repr, DecidableEq

/-- Broadcast events (`seatLocksUpdated` with its `action`/`reason`/`lockId`
payload fields). -/
inductive SockEvent where
  | locked (seatIds : List String) (lockId : String) (expiresAt : Int) (lockedBy : String)
  | released (seatIds : List String) (reason : Option String) (lockId : Option String)
deriving Repr, DecidableEq

/-- Was the request granted? -/
def SockResult.isSuccess : SockResult → Bool
  | .lockSuccess _ _ => true
  | _ => false

/-- The `socket.on('requestLock')` handler, server.js lines 188-256.

* The JS guard `!showId || !seatIds || !Array.isArray(seatIds) || !userId`
  becomes emptiness checks on the two strings (an empty JS string is falsy;
  an array, even empty, is truthy).
* `seatIds.length > 8` is rejected with a distinct error.
* `conflicts` collects every requested seat whose key is *present* in the
  map — expiry is not consulted.
* On a conflict-free request all seats are inserted under one `lockId` and
  one shared `expiresAt = now + 3 * 60 * 1000`.

Returns the requester-visible result and the updated table. -/
def requestLock (now : Int) (showId : String) (seatIds : List String)
    (userId : String) (socketId : String) (t : SockTable) :
    SockResult × SockTable :=
  if showId = "" ∨ userId = "" then (.invalidData, t)
  else if seatIds.length > 8 then (.capError, t)
  else
    let lockId := "lock_" ++ showId ++ "_" ++ userId ++ "_" ++ toString now
    let expiresAt := now + 3 * 60 * 1000
    let conflicts := seatIds.filter (fun s => mapHas t (lockKey showId s))
    if conflicts.isEmpty then
      let tNew := seatIds.foldl
        (fun acc s =>
          mapSet acc (lockKey showId s)
            { lockId := lockId, userId := userId, seatId := s,
              showId := showId, expiresAt := expiresAt, socketId := socketId })
        t
      (.lockSuccess lockId expiresAt, tNew)
    else (.lockFailed conflicts, t)

/-- One seat of the `releaseSeatLock` loop body (server.js lines 306-320):
delete the entry iff one exists and either no `specificLockId` was supplied
or it matches the entry's `lockId`. -/
def releaseSeatStep (showId : String) (specificLockId : Option String)
    (t : SockTable) (s : String) : SockTable :=
  match mapGet t (lockKey showId s) with
  | some lock =>
      if specificLockId = none ∨ specificLockId = some lock.lockId then
        mapDelete t (lockKey showId s)
      else t
  | none => t

/-- `releaseSeatLock(showId, seatIds, specificLockId)` — table effect.
The `socket.on('releaseLock')` handler calls this with whatever `lockId`
the client supplied (possibly none), and `confirmBooking` calls it with no
`lockId` at all. -/
def releaseSeatLock (showId : String) (seatIds : List String)
    (specificLockId : Option String) (t : SockTable) : SockTable :=
  seatIds.foldl (releaseSeatStep showId specificLockId) t

/-- Events emitted by `releaseSeatLock`: one `released` event per deleted
seat, carrying that lock's `lockId` and *no* `reason` field. -/
def releaseSeatLockEvents (showId : String) (seatIds : List String)
    (specificLockId : Option String) (t : SockTable) : List SockEvent :=
  (seatIds.foldl
    (fun (acc : List SockEvent × SockTable) s =>
      match mapGet acc.2 (lockKey showId s) with
      | some lock =>
          if specificLockId = none ∨ specificLockId = some lock.lockId then
            (acc.1 ++ [.released [s] none (some lock.lockId)],
             mapDelete acc.2 (lockKey showId s))
          else acc
      | none => acc)
    ([], t)).1

/-- The periodic cleanup (server.js lines 118-130, `setInterval`, 30 s
cadence): delete every entry with `expiresAt < now` and emit a `released`
event with `reason: 'expired'` for each. Returns events and new table. -/
def sweep (now : Int) (t : SockTable) : List SockEvent × SockTable :=
  ((t.filter (fun p => p.2.expiresAt < now)).map
      (fun p => SockEvent.released [p.2.seatId] (some "expired") none),
   t.filter (fun p => ¬ p.2.expiresAt < now))

/-! ## Durable layer (backend/routes/bookings.js, models, routes/shows.js) -/

/-- Seat type enum (`'regular' | 'premium' | 'vip'`). -/
inductive SeatType where
  | regular
  | premium
  | vip
deriving Repr, DecidableEq

/-- A requested seat (`{ row, number, type }` of the Joi `bookingSchema`). -/
structure Seat where
  row : Char
  number : Nat
  stype : SeatType
deriving Repr, DecidableEq

/-- A booked seat with its computed price (the `seatsWithPrices` shape,
persisted in the booking's `seats` array). -/
structure PricedSeat where
  row : Char
  number : Nat
  stype : SeatType
  price : Nat
deriving Repr, DecidableEq

/-- The per-tier price table of a show (`show.price`). -/
structure PriceTable where
  regular : Nat
  premium : Nat
  vip : Nat
deriving Repr, DecidableEq

/-- Booking status enum of the Booking model. -/
inductive BStatus where
  | pending
  | confirmed
  | cancelled
  | refunded
deriving Repr, DecidableEq

/-- A `Show` document (fields used by the booking routes).  Mongo ids are
modelled as `Nat`.  `availableSeats` is an `Int`: the schema puts no lower
bound on it and `$inc` can drive it negative. -/
structure ShowDoc where
  id : Nat
  startTime : Int
  price : PriceTable
  totalSeats : Nat
  availableSeats : Int
  isActive : Bool
deriving Repr, DecidableEq

/-- A `Booking` document (fields used by the booking routes). -/
structure BookingDoc where
  id : Nat
  userId : Nat
  showId : Nat
  seats : List PricedSeat
  totalAmount : Nat
  status : BStatus
deriving Repr, DecidableEq

/-- A durable `SeatLock` document (backend/models/SeatLock.js). -/
structure SeatLockDoc where
  showId : Nat
  seatId : String
  lockedByUserId : Nat
  expiresAt : Int
deriving Repr, DecidableEq

/-- The durable store: the three collections plus fresh-id counters
standing in for Mongo ObjectId generation. -/
structure DB where
  shows : List ShowDoc
  bookings : List BookingDoc
  seatLocks : List SeatLockDoc
  nextShowId : Nat
  nextBookingId : Nat
deriving Repr, DecidableEq

/-- The seat-id string `` `${s.row}${s.number}` ``. -/
def seatIdOf (row : Char) (number : Nat) : String :=
  row.toString ++ toString number

/-- Joi validation of one seat: `row` one capital letter, `number` in
`1..50`, `type` already enforced by the enum. -/
def validSeat (s : Seat) : Bool :=
  ('A' ≤ s.row ∧ s.row ≤ 'Z') ∧ 1 ≤ s.number ∧ s.number ≤ 50

/-- The Joi `bookingSchema` on the seats array: between 1 and 8 seats, each
valid.  (`showId` format and `specialRequests` length are not modelled;
ids are `Nat` here.)  Note: the schema imposes *no* uniqueness on the
seat array. -/
def validateBooking (seats : List Seat) : Bool :=
  1 ≤ seats.length ∧ seats.length ≤ 8 ∧ seats.all validSeat

/-- `show.price[seat.type] || show.price.regular` — JS `||` falls back to
the regular price when the tier price is `0` (falsy). -/
def priceOf (p : PriceTable) (t : SeatType) : Nat :=
  let v := match t with
    | .regular => p.regular
    | .premium => p.premium
    | .vip => p.vip
  if v = 0 then p.regular else v

/-- The seat-id strings of the seats stored in a booking. -/
def seatIdsOfBooking (b : BookingDoc) : List String :=
  b.seats.map (fun s => seatIdOf s.row s.number)

/-- Seat ids covered by `confirmed`-or-`pending` bookings of a show among a
list of booking documents — the aggregation at bookings.js lines 94-109. -/
def bookedIn (bs : List BookingDoc) (showId : Nat) : List String :=
  ((bs.filter
      (fun b => b.showId = showId ∧ (b.status = .confirmed ∨ b.status = .pending))).map
    seatIdsOfBooking).flatten

/-- Seat ids covered by `confirmed` bookings of a show among a list of
booking documents (the quantity the spec's `availableSeats` invariant
speaks about). -/
def confirmedIn (bs : List BookingDoc) (showId : Nat) : List String :=
  ((bs.filter (fun b => b.showId = showId ∧ b.status = .confirmed)).map
    seatIdsOfBooking).flatten

/-- Seat ids covered by `confirmed`-or-`pending` bookings of a show. -/
def bookedSeatIdsFor (db : DB) (showId : Nat) : List String :=
  bookedIn db.bookings showId

/-- Seat ids covered by `confirmed` bookings of a show. -/
def confirmedSeatIdsFor (db : DB) (showId : Nat) : List String :=
  confirmedIn db.bookings showId

/-- Outcomes of `POST /api/bookings`. -/
inductive CommitResult where
  /-- 400, Joi validation failure. -/
  | validationError
  /-- 404, show missing or inactive. -/
  | showNotFound
  /-- 400, less than 15 minutes before the show. -/
  | windowError
  /-- 409 with the `conflicts` array: seats already booked. -/
  | conflictError (conflicts : List String)
  /-- 409 with the `missingLocks` array: lease verification failed. -/
  | leaseError (missingLocks : List String)
  /-- 500 (an exception reached the catch block). -/
  | serverError
  /-- 201 with the created booking. -/
  | success (bookingId : Nat)
deriving Repr, DecidableEq

/-- Failure-injection points of the route: `qrOk = false` makes the QR-code
generation (which runs *inside* the transaction, before `commitTransaction`)
throw; `postFetchOk = false` makes the populated-booking fetch (which runs
*after* `commitTransaction`) throw. -/
structure CommitEnv where
  qrOk : Bool
  postFetchOk : Bool
deriving Repr, DecidableEq

/-- `seatIds = value.seats.map(s => s.row + s.number)` (bookings.js line 91). -/
def commitSeatIds (seats : List Seat) : List String :=
  seats.map (fun s => seatIdOf s.row s.number)

/-- The `userLocks` of the lease-verification step (bookings.js lines
122-130): the live (`expiresAt >= now`) durable locks of this show on the
requested seats, narrowed to those held by the requesting user. -/
def commitUserLocks (now : Int) (userId showId : Nat) (seats : List Seat)
    (db : DB) : List SeatLockDoc :=
  (db.seatLocks.filter
    (fun l => l.showId = showId ∧ (commitSeatIds seats).contains l.seatId ∧
      now ≤ l.expiresAt)).filter
    (fun l => l.lockedByUserId = userId)

/-- The Booking document created on the success path (bookings.js lines
144-163): seats priced by `show.price[seat.type] || show.price.regular`,
`totalAmount` their sum, status `confirmed`. -/
def commitBookingDoc (userId showId : Nat) (seats : List Seat)
    (pt : PriceTable) (bid : Nat) : BookingDoc :=
  { id := bid, userId := userId, showId := showId,
    seats := seats.map (fun s => PricedSeat.mk s.row s.number s.stype (priceOf pt s.stype)),
    totalAmount :=
      ((seats.map (fun s => PricedSeat.mk s.row s.number s.stype (priceOf pt s.stype))).map
        (fun s => s.price)).sum,
    status := .confirmed }

/-- The three transactional effects of a successful commit (bookings.js
lines 162-184): append the Booking, delete the user's durable locks on the
requested seats, decrement the show's `availableSeats` by the seat count. -/
def commitDB (userId showId : Nat) (seats : List Seat) (pt : PriceTable)
    (db : DB) : DB :=
  { db with
    bookings := db.bookings ++ [commitBookingDoc userId showId seats pt db.nextBookingId],
    seatLocks := db.seatLocks.filter
      (fun l => ¬ (l.showId = showId ∧ (commitSeatIds seats).contains l.seatId ∧
                   l.lockedByUserId = userId)),
    shows := db.shows.map
      (fun s => if s.id = showId
        then { s with availableSeats := s.availableSeats - (commitSeatIds seats).length }
        else s),
    nextBookingId := db.nextBookingId + 1 }

/-- The `POST /api/bookings` handler (bookings.js lines 50-223), with the
checks in source order: Joi validation; show lookup + `isActive`; booking
window; already-booked conflicts; seat-lock verification; then, inside the
same transaction, booking creation, lock release and `availableSeats`
decrement.  Every failure before `commitTransaction` runs
`abortTransaction`, i.e. returns the store unchanged; a failure in the
post-commit fetch leaves the committed effects in place. -/
def createBooking (env : CommitEnv) (now : Int) (userId : Nat)
    (showId : Nat) (seats : List Seat) (db : DB) : CommitResult × DB :=
  if ¬ validateBooking seats then (.validationError, db)
  else
    match db.shows.find? (fun s => s.id = showId) with
    | none => (.showNotFound, db)
    | some sh =>
      if ¬ sh.isActive then (.showNotFound, db)
      else if sh.startTime - now < 15 * 60 * 1000 then (.windowError, db)
      else
        let seatIds := commitSeatIds seats
        let conflicts := seatIds.filter
          (fun sid => (bookedSeatIdsFor db showId).contains sid)
        if ¬ conflicts.isEmpty then (.conflictError conflicts, db)
        else
          let userLocks := commitUserLocks now userId showId seats db
          if userLocks.length ≠ seatIds.length then
            (.leaseError
              (seatIds.filter (fun sid => ¬ userLocks.any (fun l => l.seatId = sid))), db)
          else if ¬ env.qrOk then (.serverError, db)
          else
            let dbNew := commitDB userId showId seats sh.price db
            if env.postFetchOk then (.success db.nextBookingId, dbNew)
            else (.serverError, dbNew)

/-- Outcomes of `PUT /api/bookings/:id/cancel`. -/
inductive CancelResult where
  | notFound
  | accessDenied
  | notConfirmed
  | windowError
  /-- The populated show was missing; the handler throws and aborts. -/
  | storeError
  | success
deriving Repr, DecidableEq

/-- The `PUT /api/bookings/:id/cancel` handler (bookings.js lines 370-448):
owner check, `confirmed`-only check, 2-hour window, then (in one
transaction) flip the status to `cancelled` and give the seats back to
`availableSeats`. -/
def cancelBooking (now : Int) (userId : Nat) (bookingId : Nat) (db : DB) :
    CancelResult × DB :=
  match db.bookings.find? (fun b => b.id = bookingId) with
  | none => (.notFound, db)
  | some b =>
    if b.userId ≠ userId then (.accessDenied, db)
    else if b.status ≠ .confirmed then (.notConfirmed, db)
    else
      match db.shows.find? (fun s => s.id = b.showId) with
      | none => (.storeError, db)
      | some sh =>
        if sh.startTime - now < 2 * 60 * 60 * 1000 then (.windowError, db)
        else
          (.success,
           { db with
             bookings := db.bookings.map
               (fun x => if x.id = bookingId then { x with status := .cancelled } else x),
             shows := db.shows.map
               (fun s => if s.id = b.showId
                 then { s with availableSeats := s.availableSeats + b.seats.length }
                 else s) })

/-- Show creation, `POST /api/shows` (routes/shows.js): the new show gets
`totalSeats: screen.totalSeats, availableSeats: screen.totalSeats`.
(The movie/screen/overlap checks do not touch seat accounting and are not
modelled.) -/
def createShow (startTime : Int) (price : PriceTable) (screenTotalSeats : Nat)
    (db : DB) : DB :=
  { db with
    shows := db.shows ++
      [{ id := db.nextShowId, startTime := startTime, price := price,
         totalSeats := screenTotalSeats, availableSeats := (screenTotalSeats : Int),
         isActive := true }],
    nextShowId := db.nextShowId + 1 }

/-- Modelled from the spec: insertion into the durable `SeatLock`
collection.  No code under the repository ever inserts a `SeatLock`
document (the realtime layer writes only the in-memory map — see the C3
theorem); the spec's Lock Registry is supposed to record leases here.  The
model respects the schema's unique `(showId, seatId)` index
(models/SeatLock.js line 34): an insert for an occupied key fails and
leaves the collection unchanged. -/
def lockAcquire (showId : Nat) (seatId : String) (userId : Nat)
    (expiresAt : Int) (db : DB) : DB :=
  if db.seatLocks.any (fun l => l.showId = showId ∧ l.seatId = seatId) then db
  else
    { db with
      seatLocks := db.seatLocks ++
        [{ showId := showId, seatId := seatId, lockedByUserId := userId,
           expiresAt := expiresAt }] }

/-- Operations of the durable layer that the availableSeats invariant
quantifies over. -/
inductive Op where
  | createShow (startTime : Int) (price : PriceTable) (screenTotalSeats : Nat)
  | lockAcquire (showId : Nat) (seatId : String) (userId : Nat) (expiresAt : Int)
  | commit (now : Int) (userId : Nat) (showId : Nat) (seats : List Seat)
  | cancel (now : Int) (userId : Nat) (bookingId : Nat)

/-- Apply one operation to the durable store. -/
def stepOp (db : DB) (op : Op) : DB :=
  match op with
  | .createShow t p n => createShow t p n db
  | .lockAcquire s sid u e => lockAcquire s sid u e db
  | .commit now u s seats =>
      (createBooking { qrOk := true, postFetchOk := true } now u s seats db).2
  | .cancel now u b => (cancelBooking now u b db).2

/-- The empty initial store. -/
def initDB : DB :=
  { shows := [], bookings := [], seatLocks := [], nextShowId := 0, nextBookingId := 0 }

/-- Run a sequence of operations from the empty store. -/
def runOps (ops : List Op) : DB :=
  ops.foldl stepOp initDB

/-- The lock record inserted for seat `s` by a successful `requestLock`
(the record literal at server.js lines 225-232). -/
def grantedLock (now : Int) (showId userId socketId s : String) : SockLock :=
  { lockId := "lock_" ++ showId ++ "_" ++ userId ++ "_" ++ toString now,
    userId := userId, seatId := s, showId := showId,
    expiresAt := now + 3 * 60 * 1000, socketId := socketId }

/-- A concrete lock table: seat `B1` of show `42` locked by user `u0` with
lock id `L0`, expiring at time `180000`. -/
def tC1 : SockTable :=
  [(lockKey "42" "B1",
    { lockId := "L0", userId := "u0", seatId := "B1", showId := "42",
      expiresAt := 180000, socketId := "s0" })]

/-- A concrete durable store: one active show (id 0, start time
10000000, prices 100/200/300, 5 seats, 5 available), no bookings, and one
live durable lock on seat `A1` held by user 7. -/
def dbC2 : DB :=
  { shows := [{ id := 0, startTime := 10000000,
                price := { regular := 100, premium := 200, vip := 300 },
                totalSeats := 5, availableSeats := 5, isActive := true }],
    bookings := [],
    seatLocks := [{ showId := 0, seatId := "A1", lockedByUserId := 7,
                    expiresAt := 5000 }],
    nextShowId := 1, nextBookingId := 0 }

/-- A concrete durable store: show 42 active, one `confirmed` booking
covering seat `A1` of show 42, no durable locks. -/
def dbC4 : DB :=
  { shows := [{ id := 42, startTime := 10000000,
                price := { regular := 100, premium := 200, vip := 300 },
                totalSeats := 5, availableSeats := 4, isActive := true }],
    bookings := [{ id := 0, userId := 3, showId := 42,
                   seats := [{ row := 'A', number := 1, stype := .regular,
                               price := 100 }],
                   totalAmount := 100, status := .confirmed }],
    seatLocks := [],
    nextShowId := 43, nextBookingId := 1 }

/-- A key is "release-stable" for a given `specificLockId`: either no
entry exists, or the supplied lock id does not match the entry, so a
further `releaseSeatLock` pass cannot touch it. -/
def relStable (optId : Option String) (t : SockTable) (k : String) : Prop :=
  ∀ lock, mapGet t k = some lock → ∃ id, optId = some id ∧ lock.lockId ≠ id

/-- The effect of one release pass on the lease stored under a requested
key: deleted when no `specificLockId` was supplied or it matches the
lease's `lockId`; kept untouched otherwise (server.js line 311). -/
def releaseKeyResult (optId : Option String) (v : Option SockLock) :
    Option SockLock :=
  match v with
  | some lock =>
      if optId = none ∨ optId = some lock.lockId then none else some lock
  | none => none

/-- A concrete lock table with two holders: the requester `u1` holds `A1`
under lock id `MINE`, while `u0` holds `B1` under the foreign lock id
`L0` — so the supplied id `MINE` is live elsewhere in the table while `B1`
is foreign-held. -/
def tC7 : SockTable :=
  [(lockKey "42" "A1",
    { lockId := "MINE", userId := "u1", seatId := "A1", showId := "42",
      expiresAt := 180000, socketId := "s1" }),
   (lockKey "42" "B1",
    { lockId := "L0", userId := "u0", seatId := "B1", showId := "42",
      expiresAt := 180000, socketId := "s0" })]

/-- The inductive invariant of the durable store maintained by the four
operations: fresh, distinct booking ids below the counter; bookings only
reference created shows; the route never creates `pending` bookings; the
unique `(showId, seatId)` index of the lock collection; fresh show ids; and
for every show the seat accounting — `availableSeats` equals `totalSeats`
minus the number of seats covered by confirmed-or-pending bookings, that
cover being duplicate-free. -/
structure Inv (db : DB) : Prop where
  bookingIdsNodup : (db.bookings.map (fun b => b.id)).Nodup
  bookingIdsLt : ∀ b ∈ db.bookings, b.id < db.nextBookingId
  bookingShowIdsLt : ∀ b ∈ db.bookings, b.showId < db.nextShowId
  noPending : ∀ b ∈ db.bookings, b.status ≠ .pending
  lockKeysNodup : (db.seatLocks.map (fun l => (l.showId, l.seatId))).Nodup
  showIdsLt : ∀ s ∈ db.shows, s.id < db.nextShowId
  availEq : ∀ s ∈ db.shows, s.availableSeats =
    (s.totalSeats : Int) - ((bookedIn db.bookings s.id).length : Int)
  bookedNodup : ∀ s ∈ db.shows, (bookedIn db.bookings s.id).Nodup

/-- Concrete operation trace: create a 5-seat show, lock seat `A1` for
user 7, commit it. -/
def opsC9pos : List Op :=
  [.createShow 10000000 { regular := 100, premium := 200, vip := 300 } 5,
   .lockAcquire 0 "A1" 7 5000,
   .commit 100 7 0 [{ row := 'A', number := 1, stype := .regular }]]

/-- Concrete operation trace over-booking a 1-seat show: two holders lock
and commit two different seats; nothing checks the show's capacity. -/
def opsC9neg : List Op :=
  [.createShow 10000000 { regular := 100, premium := 200, vip := 300 } 1,
   .lockAcquire 0 "A1" 7 5000,
   .lockAcquire 0 "B2" 8 5000,
   .commit 100 7 0 [{ row := 'A', number := 1, stype := .regular }],
   .commit 100 8 0 [{ row := 'B', number := 2, stype := .regular }]]

/-! ## Association-list lemmas for the in-memory map -/

theorem mapHas_iff {t : SockTable} {k : String} :
    mapHas t k = true ↔ ∃ p, p ∈ t ∧ p.1 = k := by
  simp [mapHas, List.any_eq_true]

theorem mapGet_eq_none_of_not_has {t : SockTable} {k : String}
    (h : mapHas t k = false) : mapGet t k = none := by
  rw [mapGet, Option.map_eq_none', List.find?_eq_none]
  intro p hp hpk
  have : mapHas t k = true := mapHas_iff.2 ⟨p, hp, by simpa using hpk⟩
  simp [this] at h

theorem mapGet_mem {t : SockTable} {k : String} {v : SockLock}
    (h : mapGet t k = some v) : (k, v) ∈ t ∧ mapHas t k = true := by
  rw [mapGet, Option.map_eq_some'] at h
  rcases h with ⟨p, hp, hv⟩
  have hmem := List.mem_of_find?_eq_some hp
  have hk : p.1 = k := by simpa using List.find?_some hp
  constructor
  · have : p = (k, v) := by
      cases p
      simp only at hk hv
      simp [hk, hv]
    exact this ▸ hmem
  · exact mapHas_iff.2 ⟨p, hmem, hk⟩

theorem find?_filter_key_self {t : SockTable} {k : String} :
    (t.filter (fun p => p.1 ≠ k)).find? (fun p => p.1 = k) = none := by
  rw [List.find?_eq_none]
  intro p hp
  have := (List.mem_filter.1 hp).2
  simpa using this

theorem mapGet_mapSet_self {t : SockTable} {k : String} {v : SockLock} :
    mapGet (mapSet t k v) k = some v := by
  rw [mapGet, mapSet, List.find?_append, find?_filter_key_self]
  simp

theorem find?_filter_key_ne {t : SockTable} {k k2 : String} (h : k2 ≠ k) :
    (t.filter (fun p => p.1 ≠ k)).find? (fun p => p.1 = k2) =
      t.find? (fun p => p.1 = k2) := by
  rw [List.find?_filter]
  have hfun : (fun (a : String × SockLock) =>
      decide ((decide (a.1 ≠ k) = true) ∧ (decide (a.1 = k2) = true))) =
      (fun (a : String × SockLock) => decide (a.1 = k2)) := by
    funext a
    by_cases ha : a.1 = k2
    · simp [ha, h]
    · simp [ha]
  rw [hfun]

theorem mapGet_mapSet_ne {t : SockTable} {k k2 : String} {v : SockLock}
    (h : k2 ≠ k) : mapGet (mapSet t k v) k2 = mapGet t k2 := by
  rw [mapGet, mapGet, mapSet, List.find?_append, find?_filter_key_ne h]
  have : ([(k, v)] : SockTable).find? (fun p => p.1 = k2) = none := by
    simp [List.find?_eq_none]
    exact fun hc => h hc.symm
  rw [this, Option.or_none]

theorem mapHas_mapSet_self {t : SockTable} {k : String} {v : SockLock} :
    mapHas (mapSet t k v) k = true := by
  rcases mapGet_mem (mapGet_mapSet_self (t := t) (k := k) (v := v)) with ⟨-, h⟩
  exact h

theorem mapHas_of_get_some {t : SockTable} {k : String} {v : SockLock}
    (h : mapGet t k = some v) : mapHas t k = true := (mapGet_mem h).2

theorem mapHas_mapSet_mono {t : SockTable} {k k2 : String} {v : SockLock}
    (h : mapHas t k2 = true) : mapHas (mapSet t k v) k2 = true := by
  by_cases hk : k2 = k
  · subst hk
    exact mapHas_mapSet_self
  · cases hg : mapGet t k2 with
    | none =>
      cases hh : mapHas t k2 with
      | false => simp [hh] at h
      | true =>
        rcases mapHas_iff.1 hh with ⟨p, hp, hpk⟩
        have : mapGet t k2 ≠ none := by
          rw [mapGet]
          cases hf : t.find? (fun q => q.1 = k2) with
          | none =>
            rw [List.find?_eq_none] at hf
            exact absurd (by simpa using hpk) (by simpa using hf p hp)
          | some q => simp
        simp [hg] at this
    | some v2 =>
      have : mapGet (mapSet t k v) k2 = some v2 := by rw [mapGet_mapSet_ne hk, hg]
      exact mapHas_of_get_some this

/-! ## requestLock lemmas -/

theorem foldl_mapSet_mono {keyf : String → String} {f : String → SockLock}
    {ids : List String} {t : SockTable} {k : String} (h : mapHas t k = true) :
    mapHas (ids.foldl (fun acc x => mapSet acc (keyf x) (f x)) t) k = true := by
  induction ids generalizing t with
  | nil => exact h
  | cons a as ih =>
    rw [List.foldl_cons]
    exact ih (mapHas_mapSet_mono h)

theorem foldl_mapSet_has {keyf : String → String} {f : String → SockLock}
    {ids : List String} {t : SockTable} {s : String} (hs : s ∈ ids) :
    mapHas (ids.foldl (fun acc x => mapSet acc (keyf x) (f x)) t) (keyf s) = true := by
  induction ids generalizing t with
  | nil => cases hs
  | cons a as ih =>
    rw [List.foldl_cons]
    rcases List.mem_cons.1 hs with h | h
    · subst h
      exact foldl_mapSet_mono mapHas_mapSet_self
    · exact ih h

theorem foldl_mapSet_get_of_not_mem {keyf : String → String} {f : String → SockLock}
    {ids : List String} {t : SockTable} {k : String}
    (h : ∀ x ∈ ids, keyf x ≠ k) :
    mapGet (ids.foldl (fun acc x => mapSet acc (keyf x) (f x)) t) k = mapGet t k := by
  induction ids generalizing t with
  | nil => rfl
  | cons a as ih =>
    rw [List.foldl_cons, ih (fun x hx => h x (List.mem_cons.2 (Or.inr hx))),
      mapGet_mapSet_ne]
    exact fun hc => h a (List.mem_cons.2 (Or.inl rfl)) (hc ▸ rfl)

theorem isEmpty_false_of_mem {α : Type} {a : α} {l : List α} (h : a ∈ l) :
    l.isEmpty = false := by
  cases l with
  | nil => cases h
  | cons b bs => rfl

theorem foldl_mapSet_get {keyf : String → String} {f : String → SockLock}
    {ids : List String} {t : SockTable} {k : String}
    (h : ∃ s, s ∈ ids ∧ keyf s = k) :
    ∃ s2, s2 ∈ ids ∧ keyf s2 = k ∧
      mapGet (ids.foldl (fun acc x => mapSet acc (keyf x) (f x)) t) k = some (f s2) := by
  induction ids generalizing t with
  | nil => rcases h with ⟨s, hs, -⟩; cases hs
  | cons a as ih =>
    rw [List.foldl_cons]
    by_cases hmem : ∃ s, s ∈ as ∧ keyf s = k
    · rcases ih hmem (t := mapSet t (keyf a) (f a)) with ⟨s2, hs2, hk2, hget⟩
      exact ⟨s2, List.mem_cons.2 (Or.inr hs2), hk2, hget⟩
    · push_neg at hmem
      rcases h with ⟨s, hs, hk⟩
      rcases List.mem_cons.1 hs with rfl | hs'
      · refine ⟨s, List.mem_cons.2 (Or.inl rfl), hk, ?_⟩
        rw [foldl_mapSet_get_of_not_mem (fun x hx => hmem x hx), ← hk,
          mapGet_mapSet_self]
      · exact absurd hk (hmem s hs')

theorem requestLock_conflict {now : Int} {showId userId socketId : String}
    {seatIds : List String} {t : SockTable}
    (h1 : ¬ (showId = "" ∨ userId = "")) (h3 : ¬ seatIds.length > 8)
    (hc : (seatIds.filter (fun s => mapHas t (lockKey showId s))).isEmpty = false) :
    requestLock now showId seatIds userId socketId t =
      (.lockFailed (seatIds.filter (fun s => mapHas t (lockKey showId s))), t) := by
  simp only [requestLock, if_neg h1, if_neg h3, hc]
  simp

theorem requestLock_success_eq {now : Int} {showId userId socketId : String}
    {seatIds : List String} {t : SockTable}
    (h1 : ¬ (showId = "" ∨ userId = "")) (h3 : ¬ seatIds.length > 8)
    (hc : (seatIds.filter (fun s => mapHas t (lockKey showId s))).isEmpty = true) :
    requestLock now showId seatIds userId socketId t =
      (.lockSuccess ("lock_" ++ showId ++ "_" ++ userId ++ "_" ++ toString now)
          (now + 3 * 60 * 1000),
        seatIds.foldl
          (fun acc s => mapSet acc (lockKey showId s)
            (grantedLock now showId userId socketId s)) t) := by
  simp only [requestLock, if_neg h1, if_neg h3, hc, grantedLock]
  simp

theorem requestLock_success_has {now : Int} {showId userId socketId : String}
    {seatIds : List String} {t : SockTable}
    (hsucc : ((requestLock now showId seatIds userId socketId t).1).isSuccess = true) :
    ∀ s ∈ seatIds,
      mapHas ((requestLock now showId seatIds userId socketId t).2)
        (lockKey showId s) = true := by
  intro s hs
  by_cases h1 : showId = "" ∨ userId = ""
  · simp [requestLock, if_pos h1, SockResult.isSuccess] at hsucc
  by_cases h3 : seatIds.length > 8
  · simp [requestLock, if_neg h1, if_pos h3, SockResult.isSuccess] at hsucc
  cases hc : (seatIds.filter (fun x => mapHas t (lockKey showId x))).isEmpty with
  | false =>
    rw [requestLock_conflict h1 h3 hc] at hsucc
    simp [SockResult.isSuccess] at hsucc
  | true =>
    rw [requestLock_success_eq h1 h3 hc]
    exact foldl_mapSet_has hs

theorem requestLock_not_success_of_conflict {now : Int}
    {showId userId socketId : String} {seatIds : List String} {t : SockTable}
    {s : String} (hs : s ∈ seatIds) (hhas : mapHas t (lockKey showId s) = true) :
    ((requestLock now showId seatIds userId socketId t).1).isSuccess = false := by
  by_cases h1 : showId = "" ∨ userId = ""
  · simp [requestLock, if_pos h1, SockResult.isSuccess]
  by_cases h3 : seatIds.length > 8
  · simp [requestLock, if_neg h1, if_pos h3, SockResult.isSuccess]
  have hmem : s ∈ seatIds.filter (fun x => mapHas t (lockKey showId x)) :=
    List.mem_filter.2 ⟨hs, hhas⟩
  rw [requestLock_conflict h1 h3 (isEmpty_false_of_mem hmem)]
  simp [SockResult.isSuccess]

theorem requestLock_success_showId_ne {now : Int}
    {showId userId socketId : String} {seatIds : List String} {t : SockTable}
    (hsucc : ((requestLock now showId seatIds userId socketId t).1).isSuccess = true) :
    ¬ (showId = "" ∨ userId = "") := by
  intro h1
  simp [requestLock, if_pos h1, SockResult.isSuccess] at hsucc

/-- C1, counterexample to the final consequence of the claim.  Two
requests overlap on seat `A1`: the first (`u1`, seats `A1,B1`) is refused
because of the unrelated pre-locked seat `B1`, the second (`u2`, seat `A1`)
is granted.  Exactly one request is granted, yet the loser's conflict list
is `[B1]`, which does *not* contain the overlapping seat `A1` — refuting
"the loser's conflict list contains that seat". -/
theorem claim_C1_counterexample :
    ("A1" : String) ∈ (["A1", "B1"] : List String) ∧
    ("A1" : String) ∈ (["A1"] : List String) ∧
    (requestLock 5 "42" ["A1", "B1"] "u1" "s1" tC1).1 = .lockFailed ["B1"] ∧
    ((requestLock 6 "42" ["A1"] "u2" "s2"
        (requestLock 5 "42" ["A1", "B1"] "u1" "s1" tC1).2).1).isSuccess = true ∧
    ("A1" : String) ∉ (["B1"] : List String) := by
  refine ⟨by decide, by decide, by decide, by decide, by decide⟩

/-- C1 (amended): for every `requestLock(showId, seatIds, userId)` with
non-empty ids and at most 8 seats: (a) if any requested seat already has an
entry in the lock table, no lock state changes and the requester receives
`lockFailed` naming exactly the conflicting seat ids; (b) otherwise every
requested seat becomes locked for that requester under a single `lockId`
with one shared absolute expiry `now + 3 minutes`.  (c) Of two requests
overlapping on a seat and processed in sequence, at most one is granted,
and (d) when the first is granted, the second receives `lockFailed` with
the overlapping seat in its conflict list.  (The original claim's stronger
consequence — the loser's conflict list always contains the overlapping
seat — fails when the loser is processed first, see the counterexample.) -/
theorem claim_C1 :
    (∀ (now : Int) (showId userId socketId : String) (seatIds : List String)
        (t : SockTable),
      showId ≠ "" → userId ≠ "" → seatIds.length ≤ 8 →
      ((∃ s ∈ seatIds, mapHas t (lockKey showId s) = true) →
        ∃ cs, requestLock now showId seatIds userId socketId t = (.lockFailed cs, t) ∧
          ∀ x, x ∈ cs ↔ x ∈ seatIds ∧ mapHas t (lockKey showId x) = true) ∧
      ((∀ s ∈ seatIds, mapHas t (lockKey showId s) = false) →
        ∃ L tNew,
          requestLock now showId seatIds userId socketId t =
            (.lockSuccess L (now + 3 * 60 * 1000), tNew) ∧
          ∀ s ∈ seatIds, ∃ lk, mapGet tNew (lockKey showId s) = some lk ∧
            lk.userId = userId ∧ lk.lockId = L ∧
            lk.expiresAt = now + 3 * 60 * 1000)) ∧
    (∀ (now1 now2 : Int) (showId u1 u2 k1 k2 : String)
        (ids1 ids2 : List String) (t : SockTable) (s : String),
      s ∈ ids1 → s ∈ ids2 →
      ¬ (((requestLock now1 showId ids1 u1 k1 t).1).isSuccess = true ∧
         ((requestLock now2 showId ids2 u2 k2
            (requestLock now1 showId ids1 u1 k1 t).2).1).isSuccess = true)) ∧
    (∀ (now1 now2 : Int) (showId u1 u2 k1 k2 : String)
        (ids1 ids2 : List String) (t : SockTable) (s : String),
      s ∈ ids1 → s ∈ ids2 → u2 ≠ "" → ids2.length ≤ 8 →
      ((requestLock now1 showId ids1 u1 k1 t).1).isSuccess = true →
      ∃ cs, (requestLock now2 showId ids2 u2 k2
          (requestLock now1 showId ids1 u1 k1 t).2).1 = .lockFailed cs ∧ s ∈ cs) := by
  refine ⟨?_, ?_, ?_⟩
  · intro now showId userId socketId seatIds t hshow huser hlen
    have h1 : ¬ (showId = "" ∨ userId = "") := by
      intro h
      rcases h with h | h
      · exact hshow h
      · exact huser h
    have h3 : ¬ seatIds.length > 8 := by omega
    constructor
    · intro hconf
      rcases hconf with ⟨s, hs, hhas⟩
      have hmem : s ∈ seatIds.filter (fun x => mapHas t (lockKey showId x)) :=
        List.mem_filter.2 ⟨hs, hhas⟩
      refine ⟨seatIds.filter (fun x => mapHas t (lockKey showId x)),
        requestLock_conflict h1 h3 (isEmpty_false_of_mem hmem), ?_⟩
      intro x
      constructor
      · intro hx
        have := List.mem_filter.1 hx
        exact ⟨this.1, by simpa using this.2⟩
      · intro hx
        exact List.mem_filter.2 ⟨hx.1, by simpa using hx.2⟩
    · intro hfree
      have hc : (seatIds.filter (fun x => mapHas t (lockKey showId x))).isEmpty = true := by
        have : seatIds.filter (fun x => mapHas t (lockKey showId x)) = [] := by
          rw [List.filter_eq_nil_iff]
          intro s hs
          simp [hfree s hs]
        rw [this]
        rfl
      refine ⟨"lock_" ++ showId ++ "_" ++ userId ++ "_" ++ toString now,
        seatIds.foldl (fun acc s => mapSet acc (lockKey showId s)
          (grantedLock now showId userId socketId s)) t,
        requestLock_success_eq h1 h3 hc, ?_⟩
      intro s hs
      rcases @foldl_mapSet_get (lockKey showId)
          (grantedLock now showId userId socketId) seatIds t (lockKey showId s)
          ⟨s, hs, rfl⟩ with ⟨s2, _, _, hget⟩
      exact ⟨grantedLock now showId userId socketId s2, hget, rfl, rfl, rfl⟩
  · intro now1 now2 showId u1 u2 k1 k2 ids1 ids2 t s hs1 hs2 hboth
    rcases hboth with ⟨hsucc1, hsucc2⟩
    have hhas := requestLock_success_has hsucc1 s hs1
    have := @requestLock_not_success_of_conflict now2 showId u2 k2 ids2
      (requestLock now1 showId ids1 u1 k1 t).2 s hs2 hhas
    rw [this] at hsucc2
    cases hsucc2
  · intro now1 now2 showId u1 u2 k1 k2 ids1 ids2 t s hs1 hs2 hu2 hlen2 hsucc1
    have hshow : ¬ (showId = "" ∨ u1 = "") := requestLock_success_showId_ne hsucc1
    have h1 : ¬ (showId = "" ∨ u2 = "") := by
      intro h
      rcases h with h | h
      · exact hshow (Or.inl h)
      · exact hu2 h
    have h3 : ¬ ids2.length > 8 := by omega
    have hhas := requestLock_success_has hsucc1 s hs1
    have hmem : s ∈ ids2.filter
        (fun x => mapHas ((requestLock now1 showId ids1 u1 k1 t).2) (lockKey showId x)) :=
      List.mem_filter.2 ⟨hs2, hhas⟩
    exact ⟨_, Prod.ext_iff.1 (requestLock_conflict h1 h3 (isEmpty_false_of_mem hmem))
      |>.1, hmem⟩

/-- C1 witness: the amended theorem applied at concrete inputs, every
hypothesis discharged by evaluation. -/
theorem claim_C1_witness :
    (∃ cs, requestLock 0 "42" ["B1"] "u9" "s9" tC1 = (.lockFailed cs, tC1) ∧
      ∀ x, x ∈ cs ↔ x ∈ (["B1"] : List String) ∧
        mapHas tC1 (lockKey "42" x) = true) ∧
    ¬ (((requestLock 0 "42" ["A1"] "ua" "ka" []).1).isSuccess = true ∧
       ((requestLock 1 "42" ["A1"] "ub" "kb"
          (requestLock 0 "42" ["A1"] "ua" "ka" []).2).1).isSuccess = true) := by
  constructor
  · exact ((claim_C1.1 0 "42" "u9" "s9" ["B1"] tC1 (by decide) (by decide)
      (by decide)).1 ⟨"B1", by decide, by decide⟩)
  · exact claim_C1.2.1 0 1 "42" "ua" "ub" "ka" "kb" ["A1"] ["A1"] [] "A1"
      (by decide) (by decide)

/-! ## createBooking branch lemmas -/

theorem createBooking_invalid {env : CommitEnv} {now : Int} {userId showId : Nat}
    {seats : List Seat} {db : DB} (hv : ¬ validateBooking seats = true) :
    createBooking env now userId showId seats db = (.validationError, db) := by
  rw [createBooking, if_pos hv]

theorem createBooking_noShow {env : CommitEnv} {now : Int} {userId showId : Nat}
    {seats : List Seat} {db : DB} (hv : validateBooking seats = true)
    (hfind : db.shows.find? (fun s => s.id = showId) = none) :
    createBooking env now userId showId seats db = (.showNotFound, db) := by
  rw [createBooking, if_neg (by simp [hv]), hfind]

theorem createBooking_inactive {env : CommitEnv} {now : Int} {userId showId : Nat}
    {seats : List Seat} {db : DB} {sh : ShowDoc} (hv : validateBooking seats = true)
    (hfind : db.shows.find? (fun s => s.id = showId) = some sh)
    (hact : sh.isActive = false) :
    createBooking env now userId showId seats db = (.showNotFound, db) := by
  rw [createBooking, if_neg (by simp [hv]), hfind]
  simp only []
  rw [if_pos (by rw [hact]; exact Bool.false_ne_true)]

theorem createBooking_window_eq {env : CommitEnv} {now : Int} {userId showId : Nat}
    {seats : List Seat} {db : DB} {sh : ShowDoc} (hv : validateBooking seats = true)
    (hfind : db.shows.find? (fun s => s.id = showId) = some sh)
    (hact : sh.isActive = true) (hwin : sh.startTime - now < 15 * 60 * 1000) :
    createBooking env now userId showId seats db = (.windowError, db) := by
  rw [createBooking, if_neg (by simp [hv]), hfind]
  simp only []
  rw [if_neg (by simp [hact]), if_pos hwin]

theorem createBooking_conflict_eq {env : CommitEnv} {now : Int}
    {userId showId : Nat} {seats : List Seat} {db : DB} {sh : ShowDoc}
    (hv : validateBooking seats = true)
    (hfind : db.shows.find? (fun s => s.id = showId) = some sh)
    (hact : sh.isActive = true)
    (hwin : ¬ sh.startTime - now < 15 * 60 * 1000)
    (hconf : ((commitSeatIds seats).filter
      (fun sid => (bookedSeatIdsFor db showId).contains sid)).isEmpty = false) :
    createBooking env now userId showId seats db =
      (.conflictError ((commitSeatIds seats).filter
        (fun sid => (bookedSeatIdsFor db showId).contains sid)), db) := by
  rw [createBooking, if_neg (by simp [hv]), hfind]
  simp only []
  rw [if_neg (by simp [hact]), if_neg hwin,
    if_pos (by rw [hconf]; exact Bool.false_ne_true)]

theorem createBooking_lease_eq {env : CommitEnv} {now : Int}
    {userId showId : Nat} {seats : List Seat} {db : DB} {sh : ShowDoc}
    (hv : validateBooking seats = true)
    (hfind : db.shows.find? (fun s => s.id = showId) = some sh)
    (hact : sh.isActive = true)
    (hwin : ¬ sh.startTime - now < 15 * 60 * 1000)
    (hconf : ((commitSeatIds seats).filter
      (fun sid => (bookedSeatIdsFor db showId).contains sid)).isEmpty = true)
    (hll : (commitUserLocks now userId showId seats db).length ≠
      (commitSeatIds seats).length) :
    createBooking env now userId showId seats db =
      (.leaseError ((commitSeatIds seats).filter
        (fun sid => ¬ (commitUserLocks now userId showId seats db).any
          (fun l => l.seatId = sid))), db) := by
  rw [createBooking, if_neg (by simp [hv]), hfind]
  simp only []
  rw [if_neg (by simp [hact]), if_neg hwin, if_neg (fun hc => hc hconf), if_pos hll]

theorem createBooking_qrFail_eq {env : CommitEnv} {now : Int}
    {userId showId : Nat} {seats : List Seat} {db : DB} {sh : ShowDoc}
    (hv : validateBooking seats = true)
    (hfind : db.shows.find? (fun s => s.id = showId) = some sh)
    (hact : sh.isActive = true)
    (hwin : ¬ sh.startTime - now < 15 * 60 * 1000)
    (hconf : ((commitSeatIds seats).filter
      (fun sid => (bookedSeatIdsFor db showId).contains sid)).isEmpty = true)
    (hll : (commitUserLocks now userId showId seats db).length =
      (commitSeatIds seats).length)
    (hqr : env.qrOk = false) :
    createBooking env now userId showId seats db = (.serverError, db) := by
  rw [createBooking, if_neg (by simp [hv]), hfind]
  simp only []
  rw [if_neg (by simp [hact]), if_neg hwin, if_neg (fun hc => hc hconf),
    if_neg (fun hc => hc hll), if_pos (by rw [hqr]; exact Bool.false_ne_true)]

theorem createBooking_commit_eq {env : CommitEnv} {now : Int}
    {userId showId : Nat} {seats : List Seat} {db : DB} {sh : ShowDoc}
    (hv : validateBooking seats = true)
    (hfind : db.shows.find? (fun s => s.id = showId) = some sh)
    (hact : sh.isActive = true)
    (hwin : ¬ sh.startTime - now < 15 * 60 * 1000)
    (hconf : ((commitSeatIds seats).filter
      (fun sid => (bookedSeatIdsFor db showId).contains sid)).isEmpty = true)
    (hll : (commitUserLocks now userId showId seats db).length =
      (commitSeatIds seats).length)
    (hqr : env.qrOk = true) :
    createBooking env now userId showId seats db =
      (if env.postFetchOk then (.success db.nextBookingId, commitDB userId showId seats sh.price db)
       else (.serverError, commitDB userId showId seats sh.price db)) := by
  rw [createBooking, if_neg (by simp [hv]), hfind]
  simp only []
  rw [if_neg (by simp [hact]), if_neg hwin, if_neg (fun hc => hc hconf),
    if_neg (fun hc => hc hll), if_neg (by simp [hqr])]

/-- Case analysis of the whole route: either the request fails, the store
comes back unchanged and no success is reported, or the request reaches the
transaction body - then the store is updated by exactly the three commit
effects, the response being `201` iff the post-commit fetch succeeded. -/
theorem createBooking_frame (env : CommitEnv) (now : Int) (userId showId : Nat)
    (seats : List Seat) (db : DB) :
    ((createBooking env now userId showId seats db).2 = db ∧
      ∀ i, (createBooking env now userId showId seats db).1 ≠ .success i) ∨
    (∃ sh, db.shows.find? (fun s => s.id = showId) = some sh ∧
      validateBooking seats = true ∧
      ((commitSeatIds seats).filter
        (fun sid => (bookedSeatIdsFor db showId).contains sid)).isEmpty = true ∧
      (commitUserLocks now userId showId seats db).length =
        (commitSeatIds seats).length ∧
      (createBooking env now userId showId seats db).2 =
        commitDB userId showId seats sh.price db ∧
      ((env.postFetchOk = true ∧
          (createBooking env now userId showId seats db).1 = .success db.nextBookingId) ∨
       (env.postFetchOk = false ∧
          (createBooking env now userId showId seats db).1 = .serverError))) := by
  by_cases hv : validateBooking seats = true
  case neg =>
    rw [createBooking_invalid hv]
    exact Or.inl (by simp)
  cases hfind : db.shows.find? (fun s => s.id = showId) with
  | none =>
    rw [createBooking_noShow hv hfind]
    exact Or.inl (by simp)
  | some sh =>
    cases hact : sh.isActive with
    | false =>
      rw [createBooking_inactive hv hfind hact]
      exact Or.inl (by simp)
    | true =>
      by_cases hwin : sh.startTime - now < 15 * 60 * 1000
      case pos =>
        rw [createBooking_window_eq hv hfind hact hwin]
        exact Or.inl (by simp)
      cases hconf : ((commitSeatIds seats).filter
          (fun sid => (bookedSeatIdsFor db showId).contains sid)).isEmpty with
      | false =>
        rw [createBooking_conflict_eq hv hfind hact hwin hconf]
        exact Or.inl (by simp)
      | true =>
        by_cases hll : (commitUserLocks now userId showId seats db).length =
            (commitSeatIds seats).length
        case neg =>
          rw [createBooking_lease_eq hv hfind hact hwin hconf hll]
          exact Or.inl (by simp)
        cases hqr : env.qrOk with
        | false =>
          rw [createBooking_qrFail_eq hv hfind hact hwin hconf hll hqr]
          exact Or.inl (by simp)
        | true =>
          rw [createBooking_commit_eq hv hfind hact hwin hconf hll hqr]
          cases hpf : env.postFetchOk with
          | true =>
            rw [if_pos rfl]
            exact Or.inr ⟨sh, rfl, hv, rfl, hll, rfl, Or.inl ⟨rfl, rfl⟩⟩
          | false =>
            rw [if_neg (by simp)]
            exact Or.inr ⟨sh, rfl, hv, rfl, hll, rfl, Or.inr ⟨rfl, rfl⟩⟩

/-- Inversion: everything that must have held when the route reported
success. -/
theorem createBooking_success_inv {env : CommitEnv} {now : Int}
    {userId showId : Nat} {seats : List Seat} {db : DB} {i : Nat}
    (h : (createBooking env now userId showId seats db).1 = .success i) :
    validateBooking seats = true ∧
    ((commitSeatIds seats).filter
      (fun sid => (bookedSeatIdsFor db showId).contains sid)).isEmpty = true ∧
    (commitUserLocks now userId showId seats db).length =
      (commitSeatIds seats).length ∧
    env.qrOk = true ∧ env.postFetchOk = true ∧ i = db.nextBookingId ∧
    ∃ sh, db.shows.find? (fun s => s.id = showId) = some sh ∧
      (createBooking env now userId showId seats db).2 =
        commitDB userId showId seats sh.price db := by
  by_cases hv : validateBooking seats = true
  case neg => rw [createBooking_invalid hv] at h; cases h
  cases hfind : db.shows.find? (fun s => s.id = showId) with
  | none => rw [createBooking_noShow hv hfind] at h; cases h
  | some sh =>
    cases hact : sh.isActive with
    | false => rw [createBooking_inactive hv hfind hact] at h; cases h
    | true =>
      by_cases hwin : sh.startTime - now < 15 * 60 * 1000
      case pos => rw [createBooking_window_eq hv hfind hact hwin] at h; cases h
      cases hconf : ((commitSeatIds seats).filter
          (fun sid => (bookedSeatIdsFor db showId).contains sid)).isEmpty with
      | false => rw [createBooking_conflict_eq hv hfind hact hwin hconf] at h; cases h
      | true =>
        by_cases hll : (commitUserLocks now userId showId seats db).length =
            (commitSeatIds seats).length
        case neg => rw [createBooking_lease_eq hv hfind hact hwin hconf hll] at h; cases h
        cases hqr : env.qrOk with
        | false => rw [createBooking_qrFail_eq hv hfind hact hwin hconf hll hqr] at h; cases h
        | true =>
          have hcomm := @createBooking_commit_eq env now userId showId seats db sh
            hv hfind hact hwin hconf hll hqr
          cases hpf : env.postFetchOk with
          | false =>
            rw [hcomm, if_neg (by simp [hpf])] at h
            cases h
          | true =>
            rw [hcomm, if_pos hpf] at h
            simp only [] at h
            have hi : i = db.nextBookingId := by
              cases h
              rfl
            refine ⟨hv, rfl, hll, rfl, rfl, hi, sh, rfl, ?_⟩
            rw [hcomm, if_pos hpf]

/-- C2 (amended): the three commit effects — Booking appended,
`availableSeats` decremented by the seat count, the holder's durable leases
on those seats deleted — happen together on success; every one of the
deterministic failure responses (validation, show-not-found, window,
conflict, missing lease) leaves the store untouched; a 500 either left the
store untouched (an exception before `commitTransaction`, e.g. QR-code
generation) or — the case the original claim misses — was thrown by the
post-commit fetch, after the transaction committed, so the three effects
persist although the caller is told the booking failed. -/
theorem claim_C2 : ∀ (env : CommitEnv) (now : Int) (userId showId : Nat)
    (seats : List Seat) (db : DB),
    ((∃ i, (createBooking env now userId showId seats db).1 = .success i) →
      ∃ sh, db.shows.find? (fun s => s.id = showId) = some sh ∧
        ((createBooking env now userId showId seats db).2).bookings = db.bookings ++
          [commitBookingDoc userId showId seats sh.price db.nextBookingId] ∧
        ((createBooking env now userId showId seats db).2).seatLocks = db.seatLocks.filter
          (fun l => ¬ (l.showId = showId ∧ (commitSeatIds seats).contains l.seatId ∧
                       l.lockedByUserId = userId)) ∧
        ((createBooking env now userId showId seats db).2).shows = db.shows.map
          (fun s => if s.id = showId
            then { s with availableSeats := s.availableSeats - (commitSeatIds seats).length }
            else s)) ∧
    (((createBooking env now userId showId seats db).1 = .validationError ∨
      (createBooking env now userId showId seats db).1 = .showNotFound ∨
      (createBooking env now userId showId seats db).1 = .windowError ∨
      (∃ c, (createBooking env now userId showId seats db).1 = .conflictError c) ∨
      (∃ m, (createBooking env now userId showId seats db).1 = .leaseError m)) →
      (createBooking env now userId showId seats db).2 = db) ∧
    ((createBooking env now userId showId seats db).1 = .serverError →
      (createBooking env now userId showId seats db).2 = db ∨
      (env.postFetchOk = false ∧
        ∃ sh, db.shows.find? (fun s => s.id = showId) = some sh ∧
          (createBooking env now userId showId seats db).2 =
            commitDB userId showId seats sh.price db)) := by
  intro env now userId showId seats db
  rcases createBooking_frame env now userId showId seats db with
    ⟨hunch, hnsucc⟩ | ⟨sh, hfind, -, -, -, heff, hres⟩
  · refine ⟨?_, fun _ => hunch, fun _ => Or.inl hunch⟩
    rintro ⟨i, hi⟩
    exact absurd hi (hnsucc i)
  · refine ⟨?_, ?_, ?_⟩
    · intro _
      exact ⟨sh, hfind, by rw [heff]; rfl, by rw [heff]; rfl, by rw [heff]; rfl⟩
    · intro herr
      exfalso
      rcases hres with ⟨-, hr⟩ | ⟨-, hr⟩ <;>
        rcases herr with h | h | h | ⟨c, h⟩ | ⟨m, h⟩ <;> rw [h] at hr <;> cases hr
    · intro hser
      rcases hres with ⟨-, hr⟩ | ⟨hpf, hr⟩
      · rw [hser] at hr
        cases hr
      · exact Or.inr ⟨hpf, sh, hfind, heff⟩

/-- C2, counterexample to the original claim at a concrete input: with a
valid request, a live lease, and a post-commit-fetch failure, the caller
receives a failure (`500 Booking failed`) — a "store error" failure path —
yet the Booking was created, the lease deleted and `availableSeats`
decremented. -/
theorem claim_C2_counterexample :
    (createBooking { qrOk := true, postFetchOk := false } 100 7 0
        [{ row := 'A', number := 1, stype := .regular }] dbC2).1 = .serverError ∧
    ((createBooking { qrOk := true, postFetchOk := false } 100 7 0
        [{ row := 'A', number := 1, stype := .regular }] dbC2).2).bookings.length = 1 ∧
    dbC2.bookings.length = 0 ∧
    ((createBooking { qrOk := true, postFetchOk := false } 100 7 0
        [{ row := 'A', number := 1, stype := .regular }] dbC2).2).seatLocks = [] ∧
    dbC2.seatLocks.length = 1 ∧
    ((createBooking { qrOk := true, postFetchOk := false } 100 7 0
        [{ row := 'A', number := 1, stype := .regular }] dbC2).2).shows.map
      (fun s => s.availableSeats) = [4] ∧
    dbC2.shows.map (fun s => s.availableSeats) = [5] := by
  refine ⟨rfl, rfl, rfl, rfl, rfl, rfl, rfl⟩

/-- C2 witness: the amended theorem applied at a concrete input (an invalid
request), with its hypotheses discharged by evaluation. -/
theorem claim_C2_witness :
    (createBooking { qrOk := true, postFetchOk := true } 0 7 0 [] dbC2).2 = dbC2 :=
  (claim_C2 { qrOk := true, postFetchOk := true } 0 7 0 [] dbC2).2.1 (Or.inl rfl)

/-- C3: the two lock stores are *not* the same store.  The durable
`SeatLock` collection that the commit endpoint verifies leases against is
never written by any code path, so a commit can never succeed while it is
empty (first conjunct); yet the realtime `requestLock` interface grants
leases happily — into the in-memory map only (second and third conjuncts).
A holder whose only locks came from the socket interface therefore always
fails the commit lease check. -/
theorem claim_C3 :
    (∀ (env : CommitEnv) (now : Int) (userId showId : Nat) (seats : List Seat)
        (db : DB), db.seatLocks = [] →
      ∀ i, (createBooking env now userId showId seats db).1 ≠ .success i) ∧
    ((requestLock 100 "42" ["A1"] "7" "sock" []).1).isSuccess = true ∧
    mapHas ((requestLock 100 "42" ["A1"] "7" "sock" []).2) (lockKey "42" "A1") = true := by
  refine ⟨?_, by decide, by decide⟩
  intro env now userId showId seats db hempty i hsucc
  rcases createBooking_success_inv hsucc with ⟨hv, -, hll, -⟩
  have h1 : 1 ≤ seats.length := by
    simp [validateBooking] at hv
    exact hv.1
  have hempty2 : commitUserLocks now userId showId seats db = [] := by
    simp [commitUserLocks, hempty]
  rw [hempty2] at hll
  simp [commitSeatIds] at hll
  omega

/-- C3 witness: at a concrete input with an empty durable lock collection,
the commit is refused. -/
theorem claim_C3_witness :
    (createBooking { qrOk := true, postFetchOk := true } 100 7 0
      [{ row := 'A', number := 1, stype := .regular }] initDB).1 ≠ .success 0 :=
  claim_C3.1 { qrOk := true, postFetchOk := true } 100 7 0
    [{ row := 'A', number := 1, stype := .regular }] initDB rfl 0

/-- C4, counterexample: seat `A1` of show 42 is covered by a `confirmed`
booking in the durable store, no live lease exists for it, yet a
`requestLock` for that seat is *granted*: the socket handler consults only
the in-memory lock table and never the bookings. -/
theorem claim_C4_counterexample :
    ("A1" : String) ∈ confirmedSeatIdsFor dbC4 42 ∧
    dbC4.seatLocks = [] ∧
    (requestLock 0 "42" ["A1"] "9" "s" []).1 = .lockSuccess "lock_42_9_0" 180000 := by
  refine ⟨by decide, rfl, by decide⟩

/-- C4 (amended): the realtime `requestLock` decides availability from the
lock table alone — a valid request is granted exactly when no requested
seat has a table entry, committed bookings notwithstanding.  Seats of
already-committed bookings are enforced only by the commit endpoint, which
rejects them with a 409 conflict naming the seat. -/
theorem claim_C4 :
    (∀ (now : Int) (showId userId socketId : String) (seatIds : List String)
        (t : SockTable),
      showId ≠ "" → userId ≠ "" → seatIds.length ≤ 8 →
      (((requestLock now showId seatIds userId socketId t).1).isSuccess = true ↔
        ∀ s ∈ seatIds, mapHas t (lockKey showId s) = false)) ∧
    (∀ (env : CommitEnv) (now : Int) (userId showId : Nat) (seats : List Seat)
        (db : DB) (sh : ShowDoc) (sid : String),
      validateBooking seats = true →
      db.shows.find? (fun s => s.id = showId) = some sh →
      sh.isActive = true → ¬ sh.startTime - now < 15 * 60 * 1000 →
      sid ∈ commitSeatIds seats → sid ∈ bookedSeatIdsFor db showId →
      ∃ cs, createBooking env now userId showId seats db = (.conflictError cs, db) ∧
        sid ∈ cs) := by
  constructor
  · intro now showId userId socketId seatIds t hshow huser hlen
    have h1 : ¬ (showId = "" ∨ userId = "") := by
      intro h
      rcases h with h | h
      · exact hshow h
      · exact huser h
    have h3 : ¬ seatIds.length > 8 := by omega
    constructor
    · intro hsucc s hs
      cases hc : (seatIds.filter (fun x => mapHas t (lockKey showId x))).isEmpty with
      | false =>
        rw [requestLock_conflict h1 h3 hc] at hsucc
        simp [SockResult.isSuccess] at hsucc
      | true =>
        have hnil := List.isEmpty_iff.1 hc
        cases hhas : mapHas t (lockKey showId s) with
        | false => rfl
        | true =>
          have : s ∈ seatIds.filter (fun x => mapHas t (lockKey showId x)) :=
            List.mem_filter.2 ⟨hs, hhas⟩
          rw [hnil] at this
          cases this
    · intro hfree
      have hc : (seatIds.filter (fun x => mapHas t (lockKey showId x))).isEmpty = true := by
        rw [List.isEmpty_iff, List.filter_eq_nil_iff]
        intro s hs
        simp [hfree s hs]
      rw [requestLock_success_eq h1 h3 hc]
      rfl
  · intro env now userId showId seats db sh sid hv hfind hact hwin hsid hbooked
    have hcont : (bookedSeatIdsFor db showId).contains sid = true :=
      List.elem_iff.2 hbooked
    have hmem : sid ∈ (commitSeatIds seats).filter
        (fun x => (bookedSeatIdsFor db showId).contains x) :=
      List.mem_filter.2 ⟨hsid, hcont⟩
    exact ⟨_, createBooking_conflict_eq hv hfind hact hwin (isEmpty_false_of_mem hmem),
      hmem⟩

/-- C4 witness: both conjuncts of the amended theorem applied at concrete
inputs. -/
theorem claim_C4_witness :
    (((requestLock 0 "42" ["A1"] "u" "k" []).1).isSuccess = true) ∧
    (∃ cs, createBooking { qrOk := true, postFetchOk := true } 100 9 42
        [{ row := 'A', number := 1, stype := .regular }] dbC4 =
          (.conflictError cs, dbC4) ∧ ("A1" : String) ∈ cs) := by
  constructor
  · exact (claim_C4.1 0 "42" "u" "k" ["A1"] [] (by decide) (by decide)
      (by decide)).2 (by decide)
  · exact claim_C4.2 { qrOk := true, postFetchOk := true } 100 9 42
      [{ row := 'A', number := 1, stype := .regular }] dbC4
      { id := 42, startTime := 10000000,
        price := { regular := 100, premium := 200, vip := 300 },
        totalSeats := 5, availableSeats := 4, isActive := true } "A1"
      (by decide) (by decide) (by decide) (by decide) (by decide) (by decide)

/-- C6, counterexample: the single lock of `tC1` expired at 180000, and at
time 999999999 no sweep has yet run; an acquire for that seat by another
holder is refused — the seat is *not* re-lockable from the instant of
expiry, because `requestLock` tests key presence, never expiry. -/
theorem claim_C6_counterexample :
    (∀ p ∈ tC1, p.2.expiresAt < 999999999) ∧
    (requestLock 999999999 "42" ["B1"] "u9" "s9" tC1).1 = .lockFailed ["B1"] := by
  refine ⟨by decide, by decide⟩

/-- C6 (amended): the sweep removes exactly the leases past `expiresAt`,
emitting for each a release event with reason `expired`; and once the sweep
has run, the seat is again lockable by any holder.  But a lease past its
expiry is not re-lockable *immediately*: until the sweep (or the lease's
3-minute auto-release timer) deletes the entry, `requestLock` still treats
the stale entry as a conflict (see the counterexample). -/
theorem claim_C6 :
    (∀ (now : Int) (t : SockTable) (p : String × SockLock),
      p ∈ (sweep now t).2 ↔ (p ∈ t ∧ ¬ p.2.expiresAt < now)) ∧
    (∀ (now : Int) (t : SockTable) (p : String × SockLock),
      p ∈ t → p.2.expiresAt < now →
      SockEvent.released [p.2.seatId] (some "expired") none ∈ (sweep now t).1) ∧
    (∀ (now : Int) (showId s userId socketId : String) (t : SockTable),
      showId ≠ "" → userId ≠ "" →
      (∀ p ∈ t, p.1 = lockKey showId s → p.2.expiresAt < now) →
      ∃ L, (requestLock now showId [s] userId socketId (sweep now t).2).1 =
        .lockSuccess L (now + 3 * 60 * 1000)) := by
  refine ⟨?_, ?_, ?_⟩
  · intro now t p
    simp [sweep, List.mem_filter]
  · intro now t p hp hexp
    simp only [sweep]
    exact List.mem_map.2 ⟨p, List.mem_filter.2 ⟨hp, by simpa using hexp⟩, rfl⟩
  · intro now showId s userId socketId t hshow huser hexp
    have h1 : ¬ (showId = "" ∨ userId = "") := by
      intro h
      rcases h with h | h
      · exact hshow h
      · exact huser h
    have h3 : ¬ ([s] : List String).length > 8 := by simp
    have hfree : mapHas ((sweep now t).2) (lockKey showId s) = false := by
      cases hh : mapHas ((sweep now t).2) (lockKey showId s) with
      | false => rfl
      | true =>
        exfalso
        rcases mapHas_iff.1 hh with ⟨p, hp, hpk⟩
        simp only [sweep, List.mem_filter] at hp
        exact (of_decide_eq_true hp.2) (hexp p hp.1 hpk)
    have hc : (([s] : List String).filter
        (fun x => mapHas ((sweep now t).2) (lockKey showId x))).isEmpty = true := by
      simp [hfree]
    rw [requestLock_success_eq h1 h3 hc]
    exact ⟨_, rfl⟩

/-- C6 witness: the amended theorem applied at the concrete expired table
`tC1`. -/
theorem claim_C6_witness :
    (SockEvent.released ["B1"] (some "expired") none ∈ (sweep 999999999 tC1).1) ∧
    (∃ L, (requestLock 999999999 "42" ["B1"] "u9" "s9" (sweep 999999999 tC1).2).1 =
      .lockSuccess L (999999999 + 3 * 60 * 1000)) := by
  constructor
  · exact claim_C6.2.1 999999999 tC1
      (lockKey "42" "B1",
        { lockId := "L0", userId := "u0", seatId := "B1", showId := "42",
          expiresAt := 180000, socketId := "s0" })
      (by decide) (by decide)
  · exact claim_C6.2.2 999999999 "42" "B1" "u9" "s9" tC1 (by decide) (by decide)
      (by decide)

/-! ## releaseSeatLock lemmas -/

theorem mapGet_mapDelete_self {t : SockTable} {k : String} :
    mapGet (mapDelete t k) k = none := by
  rw [mapGet, mapDelete, find?_filter_key_self]
  rfl

theorem mapGet_mapDelete_ne {t : SockTable} {k k2 : String} (h : k2 ≠ k) :
    mapGet (mapDelete t k) k2 = mapGet t k2 := by
  rw [mapGet, mapDelete, find?_filter_key_ne h, mapGet]

theorem releaseSeatStep_cases (showId : String) (optId : Option String)
    (t : SockTable) (s : String) :
    releaseSeatStep showId optId t s = t ∨
    releaseSeatStep showId optId t s = mapDelete t (lockKey showId s) := by
  cases h : mapGet t (lockKey showId s) with
  | none =>
    left
    simp only [releaseSeatStep, h]
  | some lock =>
    by_cases hc : optId = none ∨ optId = some lock.lockId
    · right
      simp only [releaseSeatStep, h]
      rw [if_pos hc]
    · left
      simp only [releaseSeatStep, h]
      rw [if_neg hc]

theorem relStable_step_self (showId : String) (optId : Option String)
    (t : SockTable) (s : String) :
    relStable optId (releaseSeatStep showId optId t s) (lockKey showId s) := by
  intro lock2 hget2
  cases hget : mapGet t (lockKey showId s) with
  | none =>
    have hstep : releaseSeatStep showId optId t s = t := by
      simp only [releaseSeatStep, hget]
    rw [hstep, hget] at hget2
    exact Option.noConfusion hget2
  | some lock =>
    simp only [releaseSeatStep, hget] at hget2
    by_cases hc : optId = none ∨ optId = some lock.lockId
    · rw [if_pos hc, mapGet_mapDelete_self] at hget2
      cases hget2
    · rw [if_neg hc] at hget2
      push_neg at hc
      rcases hc with ⟨hnone, hne⟩
      rcases Option.ne_none_iff_exists'.1 hnone with ⟨id, hid⟩
      refine ⟨id, hid, ?_⟩
      rw [hget2] at hget
      cases hget
      intro hle
      exact hne (by rw [hid, hle])

theorem relStable_step_preserve {showId : String} {optId : Option String}
    {t : SockTable} {k : String} (hst : relStable optId t k) (s : String) :
    relStable optId (releaseSeatStep showId optId t s) k := by
  rcases releaseSeatStep_cases showId optId t s with h | h
  · rw [h]
    exact hst
  · rw [h]
    intro lock hget
    by_cases hk : k = lockKey showId s
    · rw [hk, mapGet_mapDelete_self] at hget
      cases hget
    · rw [mapGet_mapDelete_ne hk] at hget
      exact hst lock hget

theorem relStable_step_noop {showId : String} {optId : Option String}
    {t : SockTable} {s : String}
    (hst : relStable optId t (lockKey showId s)) :
    releaseSeatStep showId optId t s = t := by
  cases hget : mapGet t (lockKey showId s) with
  | none => simp only [releaseSeatStep, hget]
  | some lock =>
    rcases hst lock hget with ⟨id, hid, hne⟩
    simp only [releaseSeatStep, hget]
    rw [if_neg]
    intro hc
    rcases hc with hc | hc
    · rw [hid] at hc
      cases hc
    · rw [hid] at hc
      injection hc with h
      exact hne h.symm

theorem relStable_foldl_preserve {showId : String} {optId : Option String}
    {ids : List String} {t : SockTable} {k : String}
    (hst : relStable optId t k) :
    relStable optId (releaseSeatLock showId ids optId t) k := by
  induction ids generalizing t with
  | nil => exact hst
  | cons a as ih =>
    rw [releaseSeatLock, List.foldl_cons]
    exact ih (relStable_step_preserve hst a)

theorem relStable_release {showId : String} {optId : Option String}
    {ids : List String} {t : SockTable} :
    ∀ s ∈ ids, relStable optId (releaseSeatLock showId ids optId t) (lockKey showId s) := by
  induction ids generalizing t with
  | nil => intro s hs; cases hs
  | cons a as ih =>
    intro s hs
    rw [releaseSeatLock, List.foldl_cons]
    rcases List.mem_cons.1 hs with rfl | hs'
    · exact relStable_foldl_preserve (relStable_step_self showId optId t s)
    · exact ih s hs'

theorem release_noop_of_stable {showId : String} {optId : Option String}
    {ids : List String} {t : SockTable}
    (hst : ∀ s ∈ ids, relStable optId t (lockKey showId s)) :
    releaseSeatLock showId ids optId t = t := by
  induction ids with
  | nil => rfl
  | cons a as ih =>
    rw [releaseSeatLock, List.foldl_cons,
      relStable_step_noop (hst a (List.mem_cons.2 (Or.inl rfl)))]
    exact ih (fun s hs => hst s (List.mem_cons.2 (Or.inr hs)))

theorem releaseSeatStep_get {showId : String} {optId : Option String}
    {t : SockTable} {s : String} (k : String) :
    mapGet (releaseSeatStep showId optId t s) k =
      if k = lockKey showId s then releaseKeyResult optId (mapGet t k)
      else mapGet t k := by
  cases hget : mapGet t (lockKey showId s) with
  | none =>
    have hstep : releaseSeatStep showId optId t s = t := by
      simp only [releaseSeatStep, hget]
    rw [hstep]
    by_cases hk : k = lockKey showId s
    · rw [if_pos hk, hk, hget]
      rfl
    · rw [if_neg hk]
  | some lock =>
    by_cases hc : optId = none ∨ optId = some lock.lockId
    · have hstep : releaseSeatStep showId optId t s = mapDelete t (lockKey showId s) := by
        simp only [releaseSeatStep, hget]
        rw [if_pos hc]
      rw [hstep]
      by_cases hk : k = lockKey showId s
      · rw [if_pos hk, hk, mapGet_mapDelete_self, hget]
        simp only [releaseKeyResult]
        rw [if_pos hc]
      · rw [if_neg hk, mapGet_mapDelete_ne hk]
    · have hstep : releaseSeatStep showId optId t s = t := by
        simp only [releaseSeatStep, hget]
        rw [if_neg hc]
      rw [hstep]
      by_cases hk : k = lockKey showId s
      · rw [if_pos hk, hk, hget]
        simp only [releaseKeyResult]
        rw [if_neg hc]
      · rw [if_neg hk]

theorem releaseKeyResult_idem (optId : Option String) (v : Option SockLock) :
    releaseKeyResult optId (releaseKeyResult optId v) = releaseKeyResult optId v := by
  cases v with
  | none => rfl
  | some lock =>
    by_cases hc : optId = none ∨ optId = some lock.lockId
    · have h1 : releaseKeyResult optId (some lock) = none := by
        simp only [releaseKeyResult]
        rw [if_pos hc]
      rw [h1]
      rfl
    · have h1 : releaseKeyResult optId (some lock) = some lock := by
        simp only [releaseKeyResult]
        rw [if_neg hc]
      rw [h1, h1]

theorem releaseSeatLock_get {showId : String} {ids : List String}
    {optId : Option String} {t : SockTable} (k : String) :
    mapGet (releaseSeatLock showId ids optId t) k =
      if ids.any (fun s => lockKey showId s = k) then
        releaseKeyResult optId (mapGet t k)
      else mapGet t k := by
  induction ids generalizing t with
  | nil =>
    rw [releaseSeatLock]
    simp
  | cons a as ih =>
    rw [releaseSeatLock, List.foldl_cons, ← releaseSeatLock, ih,
      releaseSeatStep_get k]
    by_cases hk : k = lockKey showId a
    · have hcond : ((a :: as).any (fun s => lockKey showId s = k)) = true := by
        simp [hk]
      rw [if_pos hk, hcond, if_pos rfl]
      by_cases has : as.any (fun s => lockKey showId s = k) = true
      · rw [if_pos has, releaseKeyResult_idem]
      · rw [if_neg has]
    · have hcond : ((a :: as).any (fun s => lockKey showId s = k)) =
          as.any (fun s => lockKey showId s = k) := by
        simp only [List.any_cons]
        have : decide (lockKey showId a = k) = false := by
          rw [decide_eq_false_iff_not]
          exact fun hc => hk hc.symm
        rw [this, Bool.false_or]
      rw [if_neg hk, hcond]

/-- The lock table for the C7 counterexample: seat `B1` of show `42` held
by user `u0` under lock id `L0`. -/
theorem claim_C7_counterexample :
    (∃ lk, mapGet tC1 (lockKey "42" "B1") = some lk ∧ lk.userId = "u0" ∧
      lk.lockId = "L0") ∧
    releaseSeatLock "42" ["B1"] none tC1 = [] := by
  refine ⟨⟨_, rfl, rfl, rfl⟩, by decide⟩

/-- C7 (amended): the release operation identifies the requester by the
supplied `lockId`, not by a holder id.  The first conjunct characterizes
the whole table effect per key: only keys of requested seats are touched,
and a requested seat's lease is deleted exactly when no `lockId` was
supplied or the lease carries the supplied one (`releaseKeyResult`), so
only the lease carrying that `lockId` is ever removed.  In particular
(conjuncts 2-5): a requested seat whose lease carries a different `lockId`
keeps its lease — even when the supplied id is live elsewhere in the
table; a requested seat's matching lease is removed; when every requested
seat's lease (if any) carries a different `lockId`, the whole table is
unchanged; and releasing seats with no entry at all is a no-op.  Release
never adds entries and is idempotent (conjuncts 6-7).  But a release
*without* a `lockId` — which any client may send, and which
`confirmBooking` sends deliberately — removes the lease of the seat
regardless of who holds it (see the counterexample). -/
theorem claim_C7 :
    (∀ (showId : String) (ids : List String) (optId : Option String)
        (t : SockTable) (k : String),
      mapGet (releaseSeatLock showId ids optId t) k =
        if ids.any (fun s => lockKey showId s = k) then
          releaseKeyResult optId (mapGet t k)
        else mapGet t k) ∧
    (∀ (showId : String) (ids : List String) (id : String) (t : SockTable)
        (s : String) (lock : SockLock), s ∈ ids →
      mapGet t (lockKey showId s) = some lock → lock.lockId ≠ id →
      mapGet (releaseSeatLock showId ids (some id) t) (lockKey showId s) =
        some lock) ∧
    (∀ (showId : String) (ids : List String) (optId : Option String)
        (t : SockTable) (s : String) (lock : SockLock), s ∈ ids →
      mapGet t (lockKey showId s) = some lock →
      (optId = none ∨ optId = some lock.lockId) →
      mapGet (releaseSeatLock showId ids optId t) (lockKey showId s) = none) ∧
    (∀ (showId : String) (ids : List String) (id : String) (t : SockTable),
      (∀ s ∈ ids, ∀ lock, mapGet t (lockKey showId s) = some lock →
        lock.lockId ≠ id) →
      releaseSeatLock showId ids (some id) t = t) ∧
    (∀ (showId : String) (ids : List String) (optId : Option String)
        (t : SockTable),
      (∀ s ∈ ids, mapHas t (lockKey showId s) = false) →
      releaseSeatLock showId ids optId t = t) ∧
    (∀ (showId : String) (ids : List String) (optId : Option String)
        (t : SockTable),
      releaseSeatLock showId ids optId (releaseSeatLock showId ids optId t) =
        releaseSeatLock showId ids optId t) ∧
    (∀ (showId : String) (ids : List String) (optId : Option String)
        (t : SockTable),
      (releaseSeatLock showId ids optId t).Sublist t) := by
  refine ⟨?_, ?_, ?_, ?_, ?_, ?_, ?_⟩
  · intro showId ids optId t k
    exact releaseSeatLock_get k
  · intro showId ids id t s lock hs hget hne
    rw [releaseSeatLock_get (lockKey showId s)]
    have hcond : (ids.any (fun x => lockKey showId x = lockKey showId s)) = true :=
      List.any_eq_true.2 ⟨s, hs, by simp⟩
    rw [hcond, if_pos rfl, hget]
    simp only [releaseKeyResult]
    rw [if_neg]
    rintro (hc | hc)
    · cases hc
    · injection hc with hc2
      exact hne hc2.symm
  · intro showId ids optId t s lock hs hget hc
    rw [releaseSeatLock_get (lockKey showId s)]
    have hcond : (ids.any (fun x => lockKey showId x = lockKey showId s)) = true :=
      List.any_eq_true.2 ⟨s, hs, by simp⟩
    rw [hcond, if_pos rfl, hget]
    simp only [releaseKeyResult]
    rw [if_pos hc]
  · intro showId ids id t hforeign
    refine release_noop_of_stable ?_
    intro s hs lock hget
    exact ⟨id, rfl, hforeign s hs lock hget⟩
  · intro showId ids optId t hfree
    refine release_noop_of_stable ?_
    intro s hs lock hget
    rw [mapGet_eq_none_of_not_has (hfree s hs)] at hget
    cases hget
  · intro showId ids optId t
    exact release_noop_of_stable (relStable_release)
  · intro showId ids optId t
    induction ids generalizing t with
    | nil => exact List.Sublist.refl t
    | cons a as ih =>
      rw [releaseSeatLock, List.foldl_cons]
      have hstep : (releaseSeatStep showId optId t a).Sublist t := by
        rcases releaseSeatStep_cases showId optId t a with h | h
        · rw [h]
        · rw [h]
          exact List.filter_sublist t
      exact (ih (t := releaseSeatStep showId optId t a)).trans hstep

/-- C7 witness: the amended theorem applied at the concrete table `tC7`,
exercising the central case — the requester's own lock id `MINE` is live
on seat `A1` while they release the foreign-held seat `B1`: `B1`'s lease
survives and the table is unchanged; releasing with the matching id `L0`
removes exactly that lease; and release is idempotent. -/
theorem claim_C7_witness :
    mapGet (releaseSeatLock "42" ["B1"] (some "MINE") tC7) (lockKey "42" "B1") =
      some { lockId := "L0", userId := "u0", seatId := "B1", showId := "42",
             expiresAt := 180000, socketId := "s0" } ∧
    releaseSeatLock "42" ["B1"] (some "MINE") tC7 = tC7 ∧
    mapGet (releaseSeatLock "42" ["B1"] (some "L0") tC7) (lockKey "42" "B1") =
      none ∧
    releaseSeatLock "42" ["B1"] (some "L0")
      (releaseSeatLock "42" ["B1"] (some "L0") tC7) =
      releaseSeatLock "42" ["B1"] (some "L0") tC7 := by
  refine ⟨?_, ?_, ?_, ?_⟩
  · exact claim_C7.2.1 "42" ["B1"] "MINE" tC7 "B1"
      { lockId := "L0", userId := "u0", seatId := "B1", showId := "42",
        expiresAt := 180000, socketId := "s0" }
      (by decide) (by decide) (by decide)
  · exact claim_C7.2.2.2.1 "42" ["B1"] "MINE" tC7 (by decide)
  · exact claim_C7.2.2.1 "42" ["B1"] (some "L0") tC7 "B1"
      { lockId := "L0", userId := "u0", seatId := "B1", showId := "42",
        expiresAt := 180000, socketId := "s0" }
      (by decide) (by decide) (by decide)
  · exact claim_C7.2.2.2.2.2.1 "42" ["B1"] (some "L0") tC7

/-- C8, counterexample: one holder (`u1`) issues two successive 5-seat
requests, each individually under the cap of 8; both are granted, after
which `u1` concurrently holds 10 leased seats — the claimed bound on a
holder's accumulated total does not exist in the code. -/
theorem claim_C8_counterexample :
    ((requestLock 0 "42" ["A1", "A2", "A3", "A4", "A5"] "u1" "s1" []).1).isSuccess
      = true ∧
    ((requestLock 1 "42" ["B1", "B2", "B3", "B4", "B5"] "u1" "s1"
        (requestLock 0 "42" ["A1", "A2", "A3", "A4", "A5"] "u1" "s1" []).2).1).isSuccess
      = true ∧
    (((requestLock 1 "42" ["B1", "B2", "B3", "B4", "B5"] "u1" "s1"
        (requestLock 0 "42" ["A1", "A2", "A3", "A4", "A5"] "u1" "s1" []).2).2).filter
      (fun p => p.2.userId = "u1")).length = 10 := by
  refine ⟨by decide, by decide, by decide⟩

/-- C8 (amended): the cap of 8 is enforced per *request* only.  A single
`requestLock` naming more than 8 seats is rejected with the distinct
`Cannot lock more than 8 seats` error and grants nothing, and the booking
schema likewise rejects more than 8 seats per commit; but nothing bounds a
holder's accumulated total across successive requests (counterexample: two
5-seat grants leave one holder with 10 seats). -/
theorem claim_C8 :
    (∀ (now : Int) (showId userId socketId : String) (seatIds : List String)
        (t : SockTable),
      ¬ (showId = "" ∨ userId = "") → seatIds.length > 8 →
      requestLock now showId seatIds userId socketId t = (.capError, t)) ∧
    (∀ seats : List Seat, seats.length > 8 → validateBooking seats = false) ∧
    (∀ (env : CommitEnv) (now : Int) (userId showId : Nat) (seats : List Seat)
        (db : DB), seats.length > 8 →
      createBooking env now userId showId seats db = (.validationError, db)) := by
  have hval : ∀ seats : List Seat, seats.length > 8 → validateBooking seats = false := by
    intro seats hlen
    rw [validateBooking, decide_eq_false_iff_not]
    rintro ⟨-, h8, -⟩
    omega
  refine ⟨?_, hval, ?_⟩
  · intro now showId userId socketId seatIds t h1 hlen
    rw [requestLock, if_neg h1, if_pos hlen]
  · intro env now userId showId seats db hlen
    exact createBooking_invalid (by rw [hval seats hlen]; exact Bool.false_ne_true)

/-- C8 witness: the amended theorem applied to a concrete 9-seat request on
both surfaces. -/
theorem claim_C8_witness :
    requestLock 0 "42" ["A1", "A2", "A3", "A4", "A5", "A6", "A7", "A8", "A9"]
      "u" "k" [] = (.capError, []) ∧
    createBooking { qrOk := true, postFetchOk := true } 0 7 0
      [{ row := 'A', number := 1, stype := .regular },
       { row := 'A', number := 2, stype := .regular },
       { row := 'A', number := 3, stype := .regular },
       { row := 'A', number := 4, stype := .regular },
       { row := 'A', number := 5, stype := .regular },
       { row := 'A', number := 6, stype := .regular },
       { row := 'A', number := 7, stype := .regular },
       { row := 'A', number := 8, stype := .regular },
       { row := 'A', number := 9, stype := .regular }] initDB =
      (.validationError, initDB) := by
  constructor
  · exact claim_C8.1 0 "42" "u" "k"
      ["A1", "A2", "A3", "A4", "A5", "A6", "A7", "A8", "A9"] [] (by decide) (by decide)
  · exact claim_C8.2.2 { qrOk := true, postFetchOk := true } 0 7 0 _ initDB (by decide)

/-! ## Lease-verification counting lemmas

The durable `SeatLock` schema enforces a unique `(showId, seatId)` index
(models/SeatLock.js line 34); under that hypothesis the lease check
`userLocks.length === seatIds.length` has the consequences below. -/

theorem mem_commitUserLocks {l : SeatLockDoc} {now : Int} {userId showId : Nat}
    {seats : List Seat} {db : DB} :
    l ∈ commitUserLocks now userId showId seats db ↔
      l ∈ db.seatLocks ∧ l.showId = showId ∧ l.seatId ∈ commitSeatIds seats ∧
        now ≤ l.expiresAt ∧ l.lockedByUserId = userId := by
  simp only [commitUserLocks, List.mem_filter, decide_eq_true_eq, List.elem_iff]
  tauto

theorem length_le_dedup_of_nodup_subset {α : Type} [DecidableEq α]
    {l l2 : List α} (hnd : l.Nodup) (hsub : ∀ x ∈ l, x ∈ l2) :
    l.length ≤ l2.dedup.length := by
  have h1 : l.toFinset.card = l.length := List.toFinset_card_of_nodup hnd
  have h2 : l.toFinset ⊆ l2.toFinset := by
    intro x hx
    exact List.mem_toFinset.2 (hsub x (List.mem_toFinset.1 hx))
  have h3 := Finset.card_le_card h2
  rw [h1, List.card_toFinset] at h3
  exact h3

theorem dedup_length_lt_of_not_nodup {α : Type} [DecidableEq α] {l : List α}
    (h : ¬ l.Nodup) : l.dedup.length < l.length := by
  have hsub := List.dedup_sublist l
  have hle := hsub.length_le
  rcases lt_or_eq_of_le hle with hlt | heq
  · exact hlt
  · exact absurd (List.dedup_eq_self.1 (hsub.eq_of_length heq)) h

theorem commitUserLocks_sublist {now : Int} {userId showId : Nat}
    {seats : List Seat} {db : DB} :
    (commitUserLocks now userId showId seats db).Sublist db.seatLocks :=
  (List.filter_sublist _).trans (List.filter_sublist _)

theorem commitUserLocks_seatIds_nodup {now : Int} {userId showId : Nat}
    {seats : List Seat} {db : DB}
    (hkeys : (db.seatLocks.map (fun l => (l.showId, l.seatId))).Nodup) :
    ((commitUserLocks now userId showId seats db).map (fun l => l.seatId)).Nodup := by
  have hpairs : ((commitUserLocks now userId showId seats db).map
      (fun l => (l.showId, l.seatId))).Nodup :=
    List.Nodup.sublist (List.Sublist.map _ commitUserLocks_sublist) hkeys
  rw [List.Nodup] at hpairs ⊢
  rw [List.pairwise_map] at hpairs ⊢
  refine hpairs.imp_of_mem ?_
  intro a b ha hb hne heq
  have hsa : a.showId = showId := (mem_commitUserLocks.1 ha).2.1
  have hsb : b.showId = showId := (mem_commitUserLocks.1 hb).2.1
  exact hne (by rw [Prod.ext_iff]; exact ⟨hsa.trans hsb.symm, heq⟩)

theorem commitUserLocks_length_le {now : Int} {userId showId : Nat}
    {seats : List Seat} {db : DB}
    (hkeys : (db.seatLocks.map (fun l => (l.showId, l.seatId))).Nodup) :
    (commitUserLocks now userId showId seats db).length ≤
      (commitSeatIds seats).dedup.length := by
  have hlen : (commitUserLocks now userId showId seats db).length =
      ((commitUserLocks now userId showId seats db).map (fun l => l.seatId)).length :=
    (List.length_map _ _).symm
  rw [hlen]
  refine length_le_dedup_of_nodup_subset (commitUserLocks_seatIds_nodup hkeys) ?_
  intro x hx
  rcases List.mem_map.1 hx with ⟨l, hl, hlx⟩
  exact hlx ▸ (mem_commitUserLocks.1 hl).2.2.1

theorem lease_pass_nodup {now : Int} {userId showId : Nat}
    {seats : List Seat} {db : DB}
    (hkeys : (db.seatLocks.map (fun l => (l.showId, l.seatId))).Nodup)
    (hll : (commitUserLocks now userId showId seats db).length =
      (commitSeatIds seats).length) :
    (commitSeatIds seats).Nodup := by
  by_contra hdup
  have h1 := @commitUserLocks_length_le now userId showId seats db hkeys
  have h2 := dedup_length_lt_of_not_nodup hdup
  omega

theorem commitUserLocks_length_lt_of_missing {now : Int} {userId showId : Nat}
    {seats : List Seat} {db : DB} {sid : String}
    (hkeys : (db.seatLocks.map (fun l => (l.showId, l.seatId))).Nodup)
    (hsid : sid ∈ commitSeatIds seats)
    (hnouser : ∀ l ∈ commitUserLocks now userId showId seats db, l.seatId ≠ sid) :
    (commitUserLocks now userId showId seats db).length <
      (commitSeatIds seats).length := by
  have hnd := @commitUserLocks_seatIds_nodup now userId showId seats db hkeys
  have hsubset : ((commitUserLocks now userId showId seats db).map
      (fun l => l.seatId)).toFinset ⊆ (commitSeatIds seats).toFinset.erase sid := by
    intro x hx
    rcases List.mem_map.1 (List.mem_toFinset.1 hx) with ⟨l, hl, hlx⟩
    refine Finset.mem_erase.2 ⟨?_, List.mem_toFinset.2 (hlx ▸ (mem_commitUserLocks.1 hl).2.2.1)⟩
    intro hxs
    exact hnouser l hl (by rw [hlx, hxs])
  have hcard1 : ((commitUserLocks now userId showId seats db).map
      (fun l => l.seatId)).toFinset.card =
      (commitUserLocks now userId showId seats db).length := by
    rw [List.toFinset_card_of_nodup hnd, List.length_map]
  have hcard2 := Finset.card_le_card hsubset
  rw [Finset.card_erase_of_mem (List.mem_toFinset.2 hsid), hcard1] at hcard2
  have hcard3 := List.toFinset_card_le (commitSeatIds seats)
  have hpos : 0 < (commitSeatIds seats).toFinset.card :=
    Finset.card_pos.2 ⟨sid, List.mem_toFinset.2 hsid⟩
  omega

/-- C10, counterexample: a commit request whose seat list contains the
duplicate `A1, A1` passes Joi validation (no uniqueness rule), and — with
the requester holding a live lease on `A1` — is rejected not with a
ValidationError but with the 409 lease response whose `missingLocks` list
is *empty*: no offending seat identifier is reported. -/
theorem claim_C10_counterexample :
    validateBooking [{ row := 'A', number := 1, stype := .regular },
                     { row := 'A', number := 1, stype := .regular }] = true ∧
    ¬ (commitSeatIds [{ row := 'A', number := 1, stype := .regular },
                      { row := 'A', number := 1, stype := .regular }]).Nodup ∧
    createBooking { qrOk := true, postFetchOk := true } 100 7 0
        [{ row := 'A', number := 1, stype := .regular },
         { row := 'A', number := 1, stype := .regular }] dbC2 =
      (.leaseError [], dbC2) := by
  refine ⟨by decide, by decide, by decide⟩

/-- C10 (amended): a commit request with duplicate seat identifiers is
never granted and changes no shared state — but not through validation:
the Joi schema accepts duplicates, and the request dies at the
lease-verification step (the holder cannot own `seatIds.length` distinct
live locks, the durable store having a unique `(showId, seatId)` index),
yielding a 409 missing-locks response rather than a ValidationError naming
the duplicated seat. -/
theorem claim_C10 : ∀ (env : CommitEnv) (now : Int) (userId showId : Nat)
    (seats : List Seat) (db : DB),
    (db.seatLocks.map (fun l => (l.showId, l.seatId))).Nodup →
    ¬ (commitSeatIds seats).Nodup →
    (∀ i, (createBooking env now userId showId seats db).1 ≠ .success i) ∧
    (createBooking env now userId showId seats db).2 = db := by
  intro env now userId showId seats db hkeys hdup
  have hne : (commitUserLocks now userId showId seats db).length ≠
      (commitSeatIds seats).length := by
    intro he
    exact hdup (lease_pass_nodup hkeys he)
  constructor
  · intro i hsucc
    rcases createBooking_success_inv hsucc with ⟨-, -, hll, -⟩
    exact hne hll
  · rcases createBooking_frame env now userId showId seats db with
      ⟨h, -⟩ | ⟨sh, -, -, -, hll, -, -⟩
    · exact h
    · exact absurd hll hne

/-- C10 witness: the amended theorem applied to the concrete duplicate
request against `dbC2`. -/
theorem claim_C10_witness :
    (∀ i, (createBooking { qrOk := true, postFetchOk := true } 100 7 0
        [{ row := 'A', number := 1, stype := .regular },
         { row := 'A', number := 1, stype := .regular }] dbC2).1 ≠ .success i) ∧
    (createBooking { qrOk := true, postFetchOk := true } 100 7 0
        [{ row := 'A', number := 1, stype := .regular },
         { row := 'A', number := 1, stype := .regular }] dbC2).2 = dbC2 :=
  claim_C10 { qrOk := true, postFetchOk := true } 100 7 0 _ dbC2
    (by decide) (by decide)

/-- C5, counterexample: seat `A1` of show 42 is both already booked and
without any lease for requester 9; the claim demands a `LeaseError`, but
the code checks booked conflicts *before* leases (the spec's step order is
the reverse) and answers with the 409 `ConflictError` instead. -/
theorem claim_C5_counterexample :
    dbC4.seatLocks = [] ∧
    (createBooking { qrOk := true, postFetchOk := true } 100 9 42
        [{ row := 'A', number := 1, stype := .regular }] dbC4).1 =
      .conflictError ["A1"] ∧
    (∀ m, CommitResult.conflictError ["A1"] ≠ CommitResult.leaseError m) := by
  refine ⟨rfl, by decide, ?_⟩
  intro m h
  cases h

/-- C5 (amended): for a commit request that passes validation, the show
lookup, the booking window and the already-booked conflict check: if some
requested seat has no live lease owned by the requester (missing or
foreign-held), the commit fails with the 409 missing-locks response whose
list names exactly the requested seats lacking a live lease of the
requester, and the store is unchanged (no Booking is created).  (A seat
that is also already booked makes the request die earlier, as a
`ConflictError` — see the counterexample.) -/
theorem claim_C5 : ∀ (env : CommitEnv) (now : Int) (userId showId : Nat)
    (seats : List Seat) (db : DB) (sh : ShowDoc),
    (db.seatLocks.map (fun l => (l.showId, l.seatId))).Nodup →
    validateBooking seats = true →
    db.shows.find? (fun s => s.id = showId) = some sh →
    sh.isActive = true →
    ¬ sh.startTime - now < 15 * 60 * 1000 →
    ((commitSeatIds seats).filter
      (fun sid => (bookedSeatIdsFor db showId).contains sid)).isEmpty = true →
    (∃ sid ∈ commitSeatIds seats, ∀ l ∈ db.seatLocks,
        l.showId = showId → l.seatId = sid → now ≤ l.expiresAt →
        l.lockedByUserId ≠ userId) →
    ∃ m, createBooking env now userId showId seats db = (.leaseError m, db) ∧
      ∀ x, x ∈ m ↔ (x ∈ commitSeatIds seats ∧ ∀ l ∈ db.seatLocks,
        l.showId = showId → l.seatId = x → now ≤ l.expiresAt →
        l.lockedByUserId ≠ userId) := by
  intro env now userId showId seats db sh hkeys hv hfind hact hwin hconf hmissing
  rcases hmissing with ⟨sid, hsid, hnolease⟩
  have hnouser : ∀ l ∈ commitUserLocks now userId showId seats db, l.seatId ≠ sid := by
    intro l hl heq
    rcases mem_commitUserLocks.1 hl with ⟨hmem, hshow, -, hlive, hmine⟩
    exact hnolease l hmem hshow heq hlive hmine
  have hlt := commitUserLocks_length_lt_of_missing hkeys hsid hnouser
  refine ⟨_, createBooking_lease_eq hv hfind hact hwin hconf (Nat.ne_of_lt hlt), ?_⟩
  intro x
  constructor
  · intro hx
    rcases List.mem_filter.1 hx with ⟨hxs, hxno⟩
    have hxno2 : ¬ ((commitUserLocks now userId showId seats db).any
        (fun l => l.seatId = x) = true) := of_decide_eq_true hxno
    refine ⟨hxs, ?_⟩
    intro l hmem hshow hseat hlive hmine
    refine hxno2 (List.any_eq_true.2 ⟨l, ?_, by simp [hseat]⟩)
    exact mem_commitUserLocks.2 ⟨hmem, hshow, by rw [hseat]; exact hxs, hlive, hmine⟩
  · rintro ⟨hxs, hno⟩
    refine List.mem_filter.2 ⟨hxs, ?_⟩
    rw [decide_eq_true_eq]
    intro hany
    rcases List.any_eq_true.1 hany with ⟨l, hl, hlx⟩
    have hlx2 : l.seatId = x := of_decide_eq_true hlx
    rcases mem_commitUserLocks.1 hl with ⟨hmem, hshow, -, hlive, hmine⟩
    exact hno l hmem hshow hlx2 hlive hmine

/-- C5 witness: user 7 holds a live lease on `A1` but not on the also
requested `B2`; the amended theorem, applied at this concrete input, yields
the 409 naming exactly `B2`. -/
theorem claim_C5_witness :
    ∃ m, createBooking { qrOk := true, postFetchOk := true } 100 7 0
        [{ row := 'A', number := 1, stype := .regular },
         { row := 'B', number := 2, stype := .regular }] dbC2 =
      (.leaseError m, dbC2) ∧
      ∀ x, x ∈ m ↔ (x ∈ commitSeatIds
          [{ row := 'A', number := 1, stype := .regular },
           { row := 'B', number := 2, stype := .regular }] ∧
        ∀ l ∈ dbC2.seatLocks, l.showId = 0 → l.seatId = x →
          (100 : Int) ≤ l.expiresAt → l.lockedByUserId ≠ 7) :=
  claim_C5 { qrOk := true, postFetchOk := true } 100 7 0
    [{ row := 'A', number := 1, stype := .regular },
     { row := 'B', number := 2, stype := .regular }] dbC2
    { id := 0, startTime := 10000000,
      price := { regular := 100, premium := 200, vip := 300 },
      totalSeats := 5, availableSeats := 5, isActive := true }
    (by decide) (by decide) (by decide) (by decide) (by decide) (by decide)
    ⟨"B2", by decide, by decide⟩

/-! ## bookedIn lemmas -/

theorem bookedIn_nil {x : Nat} : bookedIn [] x = [] := rfl

theorem bookedIn_cons {b : BookingDoc} {bs : List BookingDoc} {x : Nat} :
    bookedIn (b :: bs) x =
      (if b.showId = x ∧ (b.status = .confirmed ∨ b.status = .pending)
       then seatIdsOfBooking b else []) ++ bookedIn bs x := by
  by_cases hc : b.showId = x ∧ (b.status = .confirmed ∨ b.status = .pending)
  · rw [bookedIn, List.filter_cons_of_pos (by simpa using hc), List.map_cons,
      List.flatten_cons, if_pos hc, bookedIn]
  · rw [bookedIn, List.filter_cons_of_neg (by simpa using hc), if_neg hc,
      List.nil_append, bookedIn]

theorem bookedIn_append_single {bs : List BookingDoc} {b : BookingDoc} {x : Nat} :
    bookedIn (bs ++ [b]) x = bookedIn bs x ++
      (if b.showId = x ∧ (b.status = .confirmed ∨ b.status = .pending)
       then seatIdsOfBooking b else []) := by
  by_cases hc : b.showId = x ∧ (b.status = .confirmed ∨ b.status = .pending)
  · rw [bookedIn, List.filter_append, List.map_append, List.flatten_append,
      List.filter_cons_of_pos (by simpa using hc), List.filter_nil, if_pos hc,
      bookedIn]
    simp
  · rw [bookedIn, List.filter_append, List.map_append, List.flatten_append,
      List.filter_cons_of_neg (by simpa using hc), List.filter_nil, if_neg hc,
      bookedIn]
    simp

theorem bookedIn_eq_nil_of_lt {bs : List BookingDoc} {n : Nat}
    (h : ∀ b ∈ bs, b.showId < n) : bookedIn bs n = [] := by
  rw [bookedIn]
  have : bs.filter
      (fun b => b.showId = n ∧ (b.status = .confirmed ∨ b.status = .pending)) = [] := by
    rw [List.filter_eq_nil_iff]
    intro b hb
    simp only [decide_eq_true_eq, not_and]
    intro hsid
    exact absurd hsid (Nat.ne_of_lt (h b hb))
  rw [this, List.map_nil, List.flatten_nil]

theorem confirmedIn_eq_bookedIn {bs : List BookingDoc} {x : Nat}
    (h : ∀ b ∈ bs, b.status ≠ .pending) : confirmedIn bs x = bookedIn bs x := by
  rw [confirmedIn, bookedIn]
  congr 1
  congr 1
  refine List.filter_congr ?_
  intro b hb
  rw [decide_eq_decide]
  by_cases hsid : b.showId = x
  · cases hst : b.status with
    | confirmed => simp [hsid, hst]
    | pending => exact absurd hst (h b hb)
    | cancelled => simp [hsid, hst]
    | refunded => simp [hsid, hst]
  · simp [hsid]

theorem seatIdsOfBooking_commit {userId showId : Nat} {seats : List Seat}
    {pt : PriceTable} {bid : Nat} :
    seatIdsOfBooking (commitBookingDoc userId showId seats pt bid) =
      commitSeatIds seats := by
  rw [seatIdsOfBooking, commitBookingDoc, commitSeatIds]
  rw [List.map_map]
  rfl

/-! ## Invariant preservation -/

theorem Inv_initDB : Inv initDB :=
  ⟨List.nodup_nil, fun b hb => absurd hb (List.not_mem_nil b),
   fun b hb => absurd hb (List.not_mem_nil b),
   fun b hb => absurd hb (List.not_mem_nil b), List.nodup_nil,
   fun s hs => absurd hs (List.not_mem_nil s),
   fun s hs => absurd hs (List.not_mem_nil s),
   fun s hs => absurd hs (List.not_mem_nil s)⟩

theorem Inv_createShow {db : DB} {t : Int} {p : PriceTable} {n : Nat}
    (h : Inv db) : Inv (createShow t p n db) := by
  refine ⟨h.bookingIdsNodup, h.bookingIdsLt, ?_, h.noPending, h.lockKeysNodup,
    ?_, ?_, ?_⟩
  · intro b hb
    exact Nat.lt_succ_of_lt (h.bookingShowIdsLt b hb)
  · intro s hs
    rcases List.mem_append.1 hs with hs | hs
    · exact Nat.lt_succ_of_lt (h.showIdsLt s hs)
    · rcases List.mem_singleton.1 hs with rfl
      exact Nat.lt_succ_self _
  · intro s hs
    rcases List.mem_append.1 hs with hs | hs
    · exact h.availEq s hs
    · rcases List.mem_singleton.1 hs with rfl
      simp only [createShow]
      rw [bookedIn_eq_nil_of_lt h.bookingShowIdsLt]
      simp
  · intro s hs
    rcases List.mem_append.1 hs with hs | hs
    · exact h.bookedNodup s hs
    · rcases List.mem_singleton.1 hs with rfl
      simp only [createShow]
      rw [bookedIn_eq_nil_of_lt h.bookingShowIdsLt]
      exact List.nodup_nil

theorem Inv_lockAcquire {db : DB} {showId : Nat} {seatId : String}
    {userId : Nat} {expiresAt : Int} (h : Inv db) :
    Inv (lockAcquire showId seatId userId expiresAt db) := by
  rw [lockAcquire]
  by_cases hc : db.seatLocks.any
      (fun l => l.showId = showId ∧ l.seatId = seatId) = true
  · rw [if_pos hc]
    exact h
  · rw [if_neg hc]
    refine ⟨h.bookingIdsNodup, h.bookingIdsLt, h.bookingShowIdsLt, h.noPending,
      ?_, h.showIdsLt, h.availEq, h.bookedNodup⟩
    rw [List.map_append, List.nodup_append]
    refine ⟨h.lockKeysNodup, by simp, ?_⟩
    intro a ha hb
    simp only [List.map_cons, List.map_nil, List.mem_singleton] at hb
    rcases List.mem_map.1 ha with ⟨l, hl, hla⟩
    refine hc (List.any_eq_true.2 ⟨l, hl, ?_⟩)
    rw [hb] at hla
    have h1 : l.showId = showId := congrArg Prod.fst hla
    have h2 : l.seatId = seatId := congrArg Prod.snd hla
    simp [h1, h2]

theorem bookedIn_flip {bs : List BookingDoc} {b : BookingDoc}
    (hnd : (bs.map (fun x => x.id)).Nodup) (hb : b ∈ bs)
    (hst : b.status = .confirmed ∨ b.status = .pending) :
    (∀ x, x ≠ b.showId →
      bookedIn (bs.map (fun y =>
        if y.id = b.id then { y with status := BStatus.cancelled } else y)) x =
        bookedIn bs x) ∧
    (∃ l1 l2, bookedIn bs b.showId = l1 ++ (seatIdsOfBooking b ++ l2) ∧
      bookedIn (bs.map (fun y =>
        if y.id = b.id then { y with status := BStatus.cancelled } else y)) b.showId =
        l1 ++ l2) := by
  induction bs with
  | nil => cases hb
  | cons hd tl ih =>
    have hnd2 : (∀ x ∈ tl, ¬ x.id = hd.id) ∧ (tl.map (fun x => x.id)).Nodup := by
      simpa using hnd
    rcases List.mem_cons.1 hb with rfl | hbtl
    · have htl : tl.map (fun y =>
          if y.id = b.id then { y with status := BStatus.cancelled } else y) = tl := by
        have hcongr : ∀ y ∈ tl, (if y.id = b.id
            then { y with status := BStatus.cancelled } else y) = y :=
          fun y hy => if_neg (fun hc => hnd2.1 y hy hc)
        rw [List.map_congr_left hcongr, List.map_id']
      constructor
      · intro x hx
        rw [List.map_cons, htl, if_pos rfl, bookedIn_cons, bookedIn_cons]
        rw [if_neg (fun hc => hx hc.1.symm), if_neg (fun hc => hx hc.1.symm)]
      · refine ⟨[], bookedIn tl b.showId, ?_, ?_⟩
        · rw [bookedIn_cons, if_pos ⟨rfl, hst⟩, List.nil_append]
        · rw [List.map_cons, htl, if_pos rfl, bookedIn_cons, if_neg ?h]
          case h =>
            rintro ⟨-, hc | hc⟩ <;> cases hc
    · have hhd : hd.id ≠ b.id := fun hc => hnd2.1 b hbtl hc.symm
      have hfl : (if hd.id = b.id then { hd with status := BStatus.cancelled } else hd)
          = hd := if_neg hhd
      rcases ih hnd2.2 hbtl with ⟨hother, l1, l2, heq1, heq2⟩
      constructor
      · intro x hx
        rw [List.map_cons, hfl, bookedIn_cons, bookedIn_cons, hother x hx]
      · refine ⟨(if hd.showId = b.showId ∧
            (hd.status = .confirmed ∨ hd.status = .pending)
          then seatIdsOfBooking hd else []) ++ l1, l2, ?_, ?_⟩
        · rw [bookedIn_cons, heq1, List.append_assoc]
        · rw [List.map_cons, hfl, bookedIn_cons, heq2, List.append_assoc]

theorem Inv_cancel {db : DB} {now : Int} {userId bookingId : Nat} (h : Inv db) :
    Inv ((cancelBooking now userId bookingId db).2) := by
  cases hfb : db.bookings.find? (fun x => x.id = bookingId) with
  | none =>
    simp only [cancelBooking, hfb]
    exact h
  | some b =>
    by_cases howner : b.userId ≠ userId
    case pos =>
      simp only [cancelBooking, hfb]
      rw [if_pos howner]
      exact h
    by_cases hstatus : b.status ≠ BStatus.confirmed
    case pos =>
      simp only [cancelBooking, hfb]
      rw [if_neg howner, if_pos hstatus]
      exact h
    cases hfs : db.shows.find? (fun s => s.id = b.showId) with
    | none =>
      simp only [cancelBooking, hfb, hfs]
      rw [if_neg howner, if_neg hstatus]
      exact h
    | some sh =>
      by_cases hwin : sh.startTime - now < 2 * 60 * 60 * 1000
      case pos =>
        simp only [cancelBooking, hfb, hfs]
        rw [if_neg howner, if_neg hstatus, if_pos hwin]
        exact h
      simp only [cancelBooking, hfb, hfs]
      rw [if_neg howner, if_neg hstatus, if_neg hwin]
      have hbmem : b ∈ db.bookings := List.mem_of_find?_eq_some hfb
      have hbid : b.id = bookingId := by simpa using List.find?_some hfb
      have hbst : b.status = BStatus.confirmed := not_not.1 hstatus
      rcases bookedIn_flip h.bookingIdsNodup hbmem (Or.inl hbst) with
        ⟨hother, l1, l2, heq1, heq2⟩
      have hmapids : ∀ (f : BookingDoc → Nat),
          ((db.bookings.map (fun x =>
            if x.id = bookingId then { x with status := BStatus.cancelled } else x)).map f)
            = db.bookings.map (fun x => f (if x.id = bookingId
                then { x with status := BStatus.cancelled } else x)) :=
        fun f => List.map_map f _ _
      refine ⟨?_, ?_, ?_, ?_, h.lockKeysNodup, ?_, ?_, ?_⟩
      · have : ((db.bookings.map (fun x =>
            if x.id = bookingId then { x with status := BStatus.cancelled } else x)).map
              (fun y => y.id)) = db.bookings.map (fun y => y.id) := by
          rw [hmapids]
          refine List.map_congr_left ?_
          intro y hy
          by_cases hc : y.id = bookingId
          · rw [if_pos hc]
          · rw [if_neg hc]
        rw [this]
        exact h.bookingIdsNodup
      · intro b2 hb2
        rcases List.mem_map.1 hb2 with ⟨y, hy, rfl⟩
        have : (if y.id = bookingId then { y with status := BStatus.cancelled }
            else y).id = y.id := by
          by_cases hc : y.id = bookingId
          · rw [if_pos hc]
          · rw [if_neg hc]
        rw [this]
        exact h.bookingIdsLt y hy
      · intro b2 hb2
        rcases List.mem_map.1 hb2 with ⟨y, hy, rfl⟩
        have : (if y.id = bookingId then { y with status := BStatus.cancelled }
            else y).showId = y.showId := by
          by_cases hc : y.id = bookingId
          · rw [if_pos hc]
          · rw [if_neg hc]
        rw [this]
        exact h.bookingShowIdsLt y hy
      · intro b2 hb2
        rcases List.mem_map.1 hb2 with ⟨y, hy, rfl⟩
        by_cases hc : y.id = bookingId
        · rw [if_pos hc]
          intro hp
          cases hp
        · rw [if_neg hc]
          exact h.noPending y hy
      · intro s2 hs2
        rcases List.mem_map.1 hs2 with ⟨s, hsmem, rfl⟩
        have : (if s.id = b.showId
            then { s with availableSeats := s.availableSeats + b.seats.length }
            else s).id = s.id := by
          by_cases hc : s.id = b.showId
          · rw [if_pos hc]
          · rw [if_neg hc]
        rw [this]
        exact h.showIdsLt s hsmem
      · intro s2 hs2
        rcases List.mem_map.1 hs2 with ⟨s, hsmem, rfl⟩
        rw [← hbid]
        by_cases hc : s.id = b.showId
        · rw [if_pos hc]
          simp only [hc]
          rw [heq2]
          have := h.availEq s hsmem
          rw [hc, heq1] at this
          simp only [List.length_append] at this ⊢
          have hlen : (seatIdsOfBooking b).length = b.seats.length :=
            List.length_map _ _
          push_cast at this ⊢
          omega
        · rw [if_neg hc]
          rw [hother s.id (fun hcc => hc hcc)]
          exact h.availEq s hsmem
      · intro s2 hs2
        rcases List.mem_map.1 hs2 with ⟨s, hsmem, rfl⟩
        rw [← hbid]
        by_cases hc : s.id = b.showId
        · rw [if_pos hc]
          simp only [hc]
          rw [heq2]
          have hnd := h.bookedNodup s hsmem
          rw [hc, heq1] at hnd
          exact List.Nodup.sublist
            (List.Sublist.append_left (List.sublist_append_right _ l2) l1) hnd
        · rw [if_neg hc]
          rw [hother s.id (fun hcc => hc hcc)]
          exact h.bookedNodup s hsmem

theorem Inv_commit {env : CommitEnv} {now : Int} {userId showId : Nat}
    {seats : List Seat} {db : DB} (h : Inv db) :
    Inv ((createBooking env now userId showId seats db).2) := by
  rcases createBooking_frame env now userId showId seats db with
    ⟨heq, -⟩ | ⟨sh, hfind, hv, hconf, hll, heff, -⟩
  · rw [heq]
    exact h
  · rw [heff]
    have hshmem : sh ∈ db.shows := List.mem_of_find?_eq_some hfind
    have hshid : sh.id = showId := by simpa using List.find?_some hfind
    have hseatNodup : (commitSeatIds seats).Nodup :=
      lease_pass_nodup h.lockKeysNodup hll
    have hdisj : ∀ sid ∈ commitSeatIds seats, sid ∉ bookedIn db.bookings showId := by
      intro sid hsid hmem
      have hin : sid ∈ (commitSeatIds seats).filter
          (fun sid => (bookedSeatIdsFor db showId).contains sid) :=
        List.mem_filter.2 ⟨hsid, List.elem_iff.2 hmem⟩
      rw [List.isEmpty_iff.1 hconf] at hin
      cases hin
    refine ⟨?_, ?_, ?_, ?_, ?_, ?_, ?_, ?_⟩
    · rw [commitDB]
      simp only [List.map_append]
      rw [List.nodup_append]
      refine ⟨h.bookingIdsNodup, by simp, ?_⟩
      intro a ha hb2
      simp only [List.map_cons, List.map_nil, List.mem_singleton] at hb2
      rcases List.mem_map.1 ha with ⟨y, hy, rfl⟩
      have := h.bookingIdsLt y hy
      rw [hb2] at this
      exact absurd rfl (Nat.ne_of_lt this)
    · intro b2 hb2
      rw [commitDB] at hb2
      simp only [] at hb2
      rcases List.mem_append.1 hb2 with hb2 | hb2
      · exact Nat.lt_succ_of_lt (h.bookingIdsLt b2 hb2)
      · rcases List.mem_singleton.1 hb2 with rfl
        exact Nat.lt_succ_self _
    · intro b2 hb2
      rw [commitDB] at hb2
      simp only [] at hb2
      rcases List.mem_append.1 hb2 with hb2 | hb2
      · exact h.bookingShowIdsLt b2 hb2
      · rcases List.mem_singleton.1 hb2 with rfl
        rw [commitBookingDoc]
        simp only []
        rw [← hshid]
        exact h.showIdsLt sh hshmem
    · intro b2 hb2
      rw [commitDB] at hb2
      simp only [] at hb2
      rcases List.mem_append.1 hb2 with hb2 | hb2
      · exact h.noPending b2 hb2
      · rcases List.mem_singleton.1 hb2 with rfl
        intro hp
        cases hp
    · rw [commitDB]
      simp only []
      exact List.Nodup.sublist (List.Sublist.map _ (List.filter_sublist _))
        h.lockKeysNodup
    · intro s2 hs2
      rw [commitDB] at hs2
      simp only [] at hs2
      rcases List.mem_map.1 hs2 with ⟨s, hsmem, rfl⟩
      by_cases hc : s.id = showId
      · rw [if_pos hc]
        exact h.showIdsLt s hsmem
      · rw [if_neg hc]
        exact h.showIdsLt s hsmem
    · intro s2 hs2
      rw [commitDB] at hs2 ⊢
      simp only [] at hs2 ⊢
      rcases List.mem_map.1 hs2 with ⟨s, hsmem, rfl⟩
      by_cases hc : s.id = showId
      · rw [if_pos hc]
        simp only [hc]
        rw [bookedIn_append_single, if_pos ⟨rfl, Or.inl rfl⟩, seatIdsOfBooking_commit]
        have := h.availEq s hsmem
        rw [hc] at this
        simp only [List.length_append]
        push_cast at this ⊢
        omega
      · rw [if_neg hc]
        rw [bookedIn_append_single, if_neg ?_]
        · rw [List.append_nil]
          exact h.availEq s hsmem
        · rintro ⟨hcc, -⟩
          exact hc (by rw [← hcc]; rfl)
    · intro s2 hs2
      rw [commitDB] at hs2 ⊢
      simp only [] at hs2 ⊢
      rcases List.mem_map.1 hs2 with ⟨s, hsmem, rfl⟩
      by_cases hc : s.id = showId
      · rw [if_pos hc]
        simp only [hc]
        rw [bookedIn_append_single, if_pos ⟨rfl, Or.inl rfl⟩, seatIdsOfBooking_commit]
        rw [List.nodup_append]
        have hnd := h.bookedNodup s hsmem
        rw [hc] at hnd
        exact ⟨hnd, hseatNodup, fun a ha hb2 => hdisj a hb2 ha⟩
      · rw [if_neg hc]
        rw [bookedIn_append_single, if_neg ?_]
        · rw [List.append_nil]
          exact h.bookedNodup s hsmem
        · rintro ⟨hcc, -⟩
          exact hc (by rw [← hcc]; rfl)

theorem Inv_step {db : DB} (h : Inv db) : ∀ op, Inv (stepOp db op)
  | .createShow _ _ _ => Inv_createShow h
  | .lockAcquire _ _ _ _ => Inv_lockAcquire h
  | .commit _ _ _ _ => Inv_commit h
  | .cancel _ _ _ => Inv_cancel h

theorem Inv_foldl : ∀ (ops : List Op) (db : DB), Inv db →
    Inv (ops.foldl stepOp db) := by
  intro ops
  induction ops with
  | nil => exact fun db h => h
  | cons op ops ih =>
    intro db h
    rw [List.foldl_cons]
    exact ih _ (Inv_step h op)

/-- C9, counterexample: the trace `opsC9neg` creates a show with a single
seat and commits two bookings for two different (validly named) seats —
nothing in the commit route checks the show's capacity or seat map, and
`availableSeats` ends at `-1`. -/
theorem claim_C9_counterexample :
    (runOps opsC9neg).shows.map (fun s => s.availableSeats) = [-1] ∧
    (runOps opsC9neg).bookings.length = 2 ∧ (-1 : Int) < 0 := by
  refine ⟨by decide, by decide, by decide⟩

/-- C9 (amended): after any sequence of show creations, durable lock
acquisitions, booking commits and booking cancellations, every show
satisfies `availableSeats = totalSeats - (number of distinct seats covered
by confirmed bookings)` — the covered seats being provably duplicate-free,
their count is that number.  The "never negative" half of the original
claim is false: no operation checks capacity, so over-booking beyond
`totalSeats` drives `availableSeats` negative (see the counterexample). -/
theorem claim_C9 : ∀ (ops : List Op), ∀ s ∈ (runOps ops).shows,
    s.availableSeats = (s.totalSeats : Int) -
      ((confirmedSeatIdsFor (runOps ops) s.id).length : Int) ∧
    (confirmedSeatIdsFor (runOps ops) s.id).Nodup := by
  intro ops s hs
  have hinv : Inv (runOps ops) := Inv_foldl ops initDB Inv_initDB
  rw [confirmedSeatIdsFor, confirmedIn_eq_bookedIn hinv.noPending]
  exact ⟨hinv.availEq s hs, hinv.bookedNodup s hs⟩

/-- C9 witness: the amended theorem applied to the concrete trace
`opsC9pos` (5-seat show, one committed single-seat booking) at the
resulting show, whose `availableSeats` is 4 = 5 - 1. -/
theorem claim_C9_witness :
    ({ id := 0, startTime := 10000000,
       price := { regular := 100, premium := 200, vip := 300 },
       totalSeats := 5, availableSeats := 4, isActive := true } : ShowDoc) ∈
      (runOps opsC9pos).shows ∧
    ((4 : Int) = (5 : Int) - ((confirmedSeatIdsFor (runOps opsC9pos) 0).length : Int) ∧
      (confirmedSeatIdsFor (runOps opsC9pos) 0).Nodup) :=
  ⟨by decide, claim_C9 opsC9pos
    { id := 0, startTime := 10000000,
      price := { regular := 100, premium := 200, vip := 300 },
      totalSeats := 5, availableSeats := 4, isActive := true } (by decide)⟩

end MovieBook
